import Mathlib

/-!
Verification of the x-ray-mysql scanner and workload engines.

This file gives a shallow embedding of the core of
`backend/scanner_engine.py` and `backend/workload_engine.py`:

* the pure issue-detection heuristics of
  `DatabaseScannerEngine._detect_table_issues`;
* `MySQLPoolManager.execute_with_retry`, modelled as a pure function from
  the sequence of per-attempt outcomes to the trace of pool events
  (query executions, pool invalidations, backoff sleeps) and the final
  result;
* the scan orchestration loop of `DatabaseScannerEngine.start_scan`,
  modelled as a pure function from its inputs (current table list, resume
  information, per-table analysis outcomes, cooperative-cancellation
  point) to the list of persistence operations it performs, together with
  a replay function `replayScan` giving the final state of the persisted
  scan document;
* the phase loop of `WorkloadAnalyzerEngine.start_analysis`, modelled the
  same way.

Mutable state (the MongoDB collections) is represented by the explicit
trace of persistence operations; floats (`size_mb`, percentages) are
represented by exact rationals with Python's round-half-even rounding
made explicit.
-/

namespace XRay

/-! ## Numeric helpers: Python rounding and formatting -/

/-- Round-half-even to an integer, as Python's `round` and the `:.0f`
format specifier do at the decimal level. -/
def roundHalfEven (q : Rat) : Int :=
  let f : Int := q.floor
  let frac : Rat := q - (f : Rat)
  if frac < (1 : Rat) / 2 then f
  else if (1 : Rat) / 2 < frac then f + 1
  else if f % 2 = 0 then f else f + 1

/-- Python `round(x, 2)` on an exact rational. -/
def pyRound2 (q : Rat) : Rat := (roundHalfEven (q * 100) : Rat) / 100

/-- Python `f"{x:.0f}"` on an exact rational. -/
def pyFormat0f (q : Rat) : String := toString (roundHalfEven q)

/-- Structural worker for `chunks`: `fuel` bounds the recursion depth and
is always at least the length of the list. -/
def chunksFuel (n : Nat) : Nat → List α → List (List α)
  | 0, _ => []
  | _, [] => []
  | fuel + 1, x :: xs => (x :: xs.take (n - 1)) :: chunksFuel n fuel (xs.drop (n - 1))

/-- Split a list into consecutive chunks of size `n` (the last chunk may be
shorter).  Used both for Python's `{n:,}` digit grouping and for the
scanner's batching (`tables_to_process[i:i + self.BATCH_SIZE]`). -/
def chunks (n : Nat) (l : List α) : List (List α) :=
  chunksFuel n l.length l

/-- Python `f"{n:,}"`: decimal digits grouped in threes by commas. -/
def commaFmt (n : Int) : String :=
  let ds := (toString n.natAbs).data
  let grouped := ((chunks 3 ds.reverse).intersperse [',']).flatten.reverse
  (if n < 0 then "-" else "") ++ String.mk grouped

/-! ## Data model of the metadata fed to issue detection

The scanner's `_analyze_table` hands `_detect_table_issues` the
`table_info` row from `information_schema.TABLES`, the grouped index
records built by `TableIntrospector.get_table_indexes`, the partition
rows, and the foreign-key rows. -/

/-- One detected issue dictionary, as appended by `_detect_table_issues`. -/
structure Issue where
  type : String
  severity : String
  message : String
  recommendation : String
deriving DecidableEq, Repr

/-- One entry of an index's `columns` list as grouped by
`get_table_indexes` (`{"name": ..., "seq": ..., "sub_part": ...}`). -/
structure IndexColumn where
  name : String
  seq : Nat
deriving DecidableEq, Repr

/-- One grouped index record (`{"name", "unique", "columns", ...}`). -/
structure TableIndex where
  name : String
  unique : Bool
  columns : List IndexColumn
deriving DecidableEq, Repr

/-- One partition row from `information_schema.PARTITIONS`. -/
structure Partition where
  partition_name : String
deriving DecidableEq, Repr

/-- One foreign-key row from `get_foreign_keys`. -/
structure ForeignKey where
  column_name : String
  referenced_table : String
  referenced_column : String
deriving DecidableEq, Repr

/-- The fields of the `table_info` row that `_detect_table_issues` reads:
`total_mb`, `row_count` and `table_name`. -/
structure TableInfo where
  table_name : String
  total_mb : Rat
  row_count : Int
deriving DecidableEq, Repr

/-! ## Issue detection (`DatabaseScannerEngine._detect_table_issues`)

The Python code builds one list by appending four groups in order; we
define each group separately and concatenate them in the same order. -/

/-- All column names occurring in any index at any position
(the `indexed_cols` set of the Python code). -/
def indexColumnNames (indexes : List TableIndex) : List String :=
  indexes.flatMap (fun idx => idx.columns.map (fun c => c.name))

/-- The large-table heuristic:
`if size_mb > 1024 and not partitions`. -/
def largeTableIssues (table_info : TableInfo) (partitions : List Partition) : List Issue :=
  if 1024 < table_info.total_mb ∧ partitions = [] then
    [{ type := "large_table_no_partition",
       severity := if 10240 < table_info.total_mb then "critical" else "high",
       message := "Table is " ++ pyFormat0f table_info.total_mb ++ "MB without partitioning",
       recommendation := "Consider date-based or hash partitioning" }]
  else []

/-- The missing-secondary-index heuristic:
`if row_count > 10000 and not non_pk_indexes`. -/
def noSecondaryIndexIssues (table_info : TableInfo) (indexes : List TableIndex) : List Issue :=
  if 10000 < table_info.row_count ∧ indexes.filter (fun i => decide (i.name ≠ "PRIMARY")) = [] then
    [{ type := "no_secondary_indexes",
       severity := "high",
       message := "Table has " ++ commaFmt table_info.row_count
         ++ " rows but no secondary indexes",
       recommendation := "Add indexes for frequently queried columns" }]
  else []

/-- The foreign-key heuristic: a foreign key is flagged when its column is
not in `indexed_cols`, the set of columns of any index at any position. -/
def fkWithoutIndexIssues (table_info : TableInfo) (indexes : List TableIndex)
    (foreign_keys : List ForeignKey) : List Issue :=
  foreign_keys.filterMap (fun fk =>
    if fk.column_name ∈ indexColumnNames indexes then none
    else some
      { type := "fk_without_index",
        severity := "high",
        message := "Foreign key " ++ fk.column_name ++ " -> "
          ++ fk.referenced_table ++ " has no index",
        recommendation := "CREATE INDEX idx_" ++ table_info.table_name ++ "_"
          ++ fk.column_name ++ " ON " ++ table_info.table_name
          ++ "(" ++ fk.column_name ++ ")" })

/-- The `index_prefixes` list of `_detect_table_issues`:
`(name, ",".join(cols))` for every index with a nonempty column list. -/
def indexPrefixList (indexes : List TableIndex) : List (String × String) :=
  indexes.filterMap (fun idx =>
    if idx.columns.map (fun c => c.name) = [] then none
    else some (idx.name, String.intercalate "," (idx.columns.map (fun c => c.name))))

/-- The redundant-index heuristic: for every ordered pair of distinct
positions of `index_prefixes`, flag when `cols2.startswith(cols1 + ',')`.
The issue's message and recommendation both name `name1`. -/
def redundantIndexIssues (indexes : List TableIndex) : List Issue :=
  (indexPrefixList indexes).enum.flatMap (fun p1 =>
    (indexPrefixList indexes).enum.filterMap (fun p2 =>
      if p1.1 ≠ p2.1 ∧ (p1.2.2 ++ ",").data.isPrefixOf p2.2.2.data then
        some { type := "redundant_index",
               severity := "medium",
               message := "Index " ++ p1.2.1 ++ " (" ++ p1.2.2
                 ++ ") is prefix of " ++ p2.2.1,
               recommendation := "Consider removing redundant index " ++ p1.2.1 }
      else none))

/-- `DatabaseScannerEngine._detect_table_issues`: the four issue groups
appended in source order. -/
def detect_table_issues (table_info : TableInfo) (indexes : List TableIndex)
    (partitions : List Partition) (foreign_keys : List ForeignKey) : List Issue :=
  largeTableIssues table_info partitions
    ++ noSecondaryIndexIssues table_info indexes
    ++ fkWithoutIndexIssues table_info indexes foreign_keys
    ++ redundantIndexIssues indexes

/-! ## Connection pool retry (`MySQLPoolManager.execute_with_retry`)

The coroutine is modelled as a pure function of the outcome of each
attempt.  Its observable behaviour is the trace of pool events — query
executions, pool invalidations (`_handle_connection_error`) and backoff
sleeps — together with the returned rows or the raised error. -/

/-- `MySQLPoolManager.RETRYABLE_ERRORS`. -/
def RETRYABLE_ERRORS : List Int := [2003, 2006, 2013, 2055]

/-- What one execution attempt does: returns rows, times out at query
level (`asyncio.TimeoutError`), raises an `aiomysql.Error` with a code,
or raises some other exception. -/
inductive AttemptOutcome
  | ok (rows : List Nat)
  | timeout
  | mysqlError (code : Int)
  | otherError
deriving DecidableEq, Repr

/-- The error finally raised by `execute_with_retry`. -/
inductive QueryError
  | queryTimeout (timeout : Nat)
  | mysqlErr (code : Int)
  | otherErr
  | maxRetriesExceeded
deriving DecidableEq, Repr

/-- Observable pool events of one `execute_with_retry` call. -/
inductive PoolEvent
  | executeAttempt (n : Nat)
  | invalidatePool
  | sleep (seconds : Nat)
deriving DecidableEq, Repr

/-- The retry loop body: one recursive step per remaining attempt index,
carrying `last_error`.  Translated from the `for attempt in
range(self.retry_attempts)` loop. -/
def retryGo (outcomes : Nat → AttemptOutcome) (timeout : Nat) :
    List Nat → Option QueryError → List PoolEvent × Except QueryError (List Nat)
  | [], last_error => ([], .error (last_error.getD .maxRetriesExceeded))
  | attempt :: rest, _ =>
    match outcomes attempt with
    | .ok rows => ([.executeAttempt attempt], .ok rows)
    | .timeout =>
      let r := retryGo outcomes timeout rest (some (.queryTimeout timeout))
      (.executeAttempt attempt :: .invalidatePool :: r.1, r.2)
    | .mysqlError code =>
      if code ∈ RETRYABLE_ERRORS then
        let r := retryGo outcomes timeout rest (some (.mysqlErr code))
        (.executeAttempt attempt :: .invalidatePool
          :: .sleep (min (2 ^ attempt) 10) :: r.1, r.2)
      else ([.executeAttempt attempt], .error (.mysqlErr code))
    | .otherError =>
      let r := retryGo outcomes timeout rest (some .otherErr)
      (.executeAttempt attempt :: .invalidatePool :: r.1, r.2)

/-- `MySQLPoolManager.execute_with_retry` with the given `retry_attempts`
configuration, per-attempt outcomes, and query timeout. -/
def execute_with_retry (retry_attempts : Nat) (outcomes : Nat → AttemptOutcome)
    (timeout : Nat) : List PoolEvent × Except QueryError (List Nat) :=
  retryGo outcomes timeout (List.range retry_attempts) none

/-- Total seconds slept before the query is executed for the `k`-th time
(0-based): the sum of all sleep events preceding `executeAttempt k`. -/
def waitBefore (tr : List PoolEvent) (k : Nat) : Nat :=
  (tr.takeWhile (fun e => decide (e ≠ PoolEvent.executeAttempt k))).foldl
    (fun acc e => match e with | .sleep s => acc + s | _ => acc) 0

/-! ## Scan persistence and orchestration (`ScanPersistence`,
`DatabaseScannerEngine.start_scan`)

The MongoDB side effects of a scan are modelled as a trace of
`PersistOp` values, one per persistence call, and `replayScan` folds a
trace into the final state of the persisted scan document. -/

/-- `ScanStatus`. -/
inductive ScanStatus
  | pending
  | running
  | paused
  | completed
  | failed
  | cancelled
deriving DecidableEq, Repr

/-- The string stored in the `status` field for each `ScanStatus`. -/
def ScanStatus.value : ScanStatus → String
  | .pending => "pending"
  | .running => "running"
  | .paused => "paused"
  | .completed => "completed"
  | .failed => "failed"
  | .cancelled => "cancelled"

/-- One write performed through `ScanPersistence`.  `updateProgress`
carries the `processed` and `total` arguments of
`update_scan_progress`; `withStats` records whether a `stats_delta` was
passed (the post-write) or not (the pre-write). -/
inductive PersistOp
  | createScan (scan_id : String) (total_tables : Nat)
  | logEvent (scan_id event_type message : String)
  | updateProgress (scan_id current_table : String) (processed total : Nat) (withStats : Bool)
  | saveTableResult (scan_id table_name : String)
  | addTableError (scan_id table_name error : String)
  | markScanCompleted (scan_id : String)
  | markScanFailed (scan_id error : String)
deriving DecidableEq, Repr

/-- The fields of the persisted scan document that the claims are about.
Error-log entries are `(table name or none, message)`. -/
structure ScanDoc where
  status : ScanStatus
  total_tables : Nat
  processed_tables : Nat
  progress_percentage : Rat
  current_table : Option String
  errors : List (Option String × String)
deriving DecidableEq, Repr

/-- The document inserted by `ScanPersistence.create_scan`. -/
def initialScanDoc (total : Nat) : ScanDoc :=
  { status := .pending, total_tables := total, processed_tables := 0,
    progress_percentage := 0, current_table := none, errors := [] }

/-- Effect of one persistence call on the scan document, following
`create_scan`, `update_scan_progress`, `save_table_result` (a different
collection), `add_table_error`, `mark_scan_completed`,
`mark_scan_failed` and `log_event` (a different collection). -/
def applyOp (doc : ScanDoc) : PersistOp → ScanDoc
  | .createScan _ total => initialScanDoc total
  | .updateProgress _ t processed total _ =>
    { doc with
      status := .running,
      processed_tables := processed,
      current_table := some t,
      progress_percentage :=
        if 0 < total then pyRound2 (((processed : Rat) / (total : Rat)) * 100) else 0 }
  | .logEvent _ _ _ => doc
  | .saveTableResult _ _ => doc
  | .addTableError _ t e => { doc with errors := doc.errors ++ [(some t, e)] }
  | .markScanCompleted _ => { doc with status := .completed, current_table := none }
  | .markScanFailed _ e =>
    { doc with status := .failed, errors := doc.errors ++ [(none, e)] }

/-- Replay a trace of persistence calls into the final scan document. -/
def replayScan (ops : List PersistOp) : ScanDoc :=
  ops.foldl applyOp (initialScanDoc 0)

/-- The set of table names present in the `scan_tables` collection after
a trace: what `ScanPersistence.get_processed_tables` returns. -/
def savedTables (ops : List PersistOp) : List String :=
  ops.filterMap (fun op => match op with
    | .saveTableResult _ t => some t
    | _ => none)

/-- The `(processed, total)` arguments of the progress writes of a trace,
in order. -/
def progressWrites (ops : List PersistOp) : List (Nat × Nat) :=
  ops.filterMap (fun op => match op with
    | .updateProgress _ _ p tot _ => some (p, tot)
    | _ => none)

/-- `DatabaseScannerEngine.BATCH_SIZE`. -/
def BATCH_SIZE : Nat := 10

/-- The cooperative cancellation flag, parameterised by the number of
tables processed so far: `cancelAfter = some k` means `cancel()` takes
effect once `k` tables have been counted, `none` means it is never
called.  The flag is monotone, as in the Python code (it is only ever
set). -/
def cancelFlag (cancelAfter : Option Nat) (m : Nat) : Bool :=
  match cancelAfter with
  | none => false
  | some k => decide (k ≤ m)

/-- The body of the per-table loop: the pre-write, then either analysis
success (result saved, post-write with stats) or an analysis exception
(error logged via `add_table_error`, nothing else written).  In both
cases the in-memory `processed_count` becomes `c + 1`. -/
def processTable (scan_id : String) (total : Nat) (analyze : String → Option String)
    (c : Nat) (t : String) : List PersistOp :=
  match analyze t with
  | none =>
    [.updateProgress scan_id t c total false,
     .saveTableResult scan_id t,
     .updateProgress scan_id t (c + 1) total true]
  | some msg =>
    [.updateProgress scan_id t c total false,
     .addTableError scan_id t msg]

/-- The inner `for table_info in batch` loop: checks the cancellation
flag before each table, otherwise processes it and increments the
counter.  Returns the trace and the final `processed_count`. -/
def runBatchTables (cf : Nat → Bool) (scan_id : String) (total : Nat)
    (analyze : String → Option String) : List String → Nat → List PersistOp × Nat
  | [], c => ([], c)
  | t :: ts, c =>
    if cf c then ([], c)
    else
      let r := runBatchTables cf scan_id total analyze ts (c + 1)
      (processTable scan_id total analyze c t ++ r.1, r.2)

/-- The outer batch loop: checks the flag at each batch boundary (logging
the `scan_cancelled` event and stopping if set), otherwise runs the
batch. -/
def runBatches (cf : Nat → Bool) (scan_id : String) (total : Nat)
    (analyze : String → Option String) : List (List String) → Nat → List PersistOp × Nat
  | [], c => ([], c)
  | b :: bs, c =>
    if cf c then ([PersistOp.logEvent scan_id "scan_cancelled" "Scan cancelled by user"], c)
    else
      let rb := runBatchTables cf scan_id total analyze b c
      let rest := runBatches cf scan_id total analyze bs rb.2
      (rb.1 ++ rest.1, rest.2)

/-- `DatabaseScannerEngine.start_scan`.  Inputs: the target database
name, the table list returned by `get_real_tables` (in its order), the
optional `resume_scan_id` together with whether `get_scan` finds it and
what `get_processed_tables` returns, the per-table analysis outcome
(`none` = success, `some msg` = exception), the cancellation point, and
the id a fresh scan would be given.  Output: the trace of persistence
writes and either the returned `scan_id` or the raised error message. -/
def start_scan (database : String) (tables : List String)
    (resume_scan_id : Option String) (scanExists : Bool) (processedSet : List String)
    (analyze : String → Option String) (cancelAfter : Option Nat)
    (newScanId : String) : List PersistOp × Except String String :=
  let total_tables := tables.length
  if total_tables = 0 then
    ([], .error ("No tables found in database " ++ database))
  else
    let setup : Except String (String × List String × List PersistOp) :=
      match resume_scan_id with
      | some rid =>
        if scanExists then .ok (rid, processedSet, [])
        else .error ("Scan " ++ rid ++ " not found")
      | none => .ok (newScanId, [], [.createScan newScanId total_tables])
    match setup with
    | .error e => ([], .error e)
    | .ok (scan_id, processed, createOps) =>
      let startLog := PersistOp.logEvent scan_id "scan_started"
        ("Scanning " ++ toString total_tables ++ " tables in " ++ database)
      let tables_to_process := tables.filter (fun t => decide (t ∉ processed))
      let processed_count := processed.length
      let cf := cancelFlag cancelAfter
      let r := runBatches cf scan_id total_tables analyze
        (chunks BATCH_SIZE tables_to_process) processed_count
      let endOps := if cf r.2 then [] else
        [PersistOp.markScanCompleted scan_id,
         PersistOp.logEvent scan_id "scan_completed" "Scan completed"]
      (createOps ++ [startLog] ++ r.1 ++ endOps, .ok scan_id)

/-- An analysis outcome function under which exactly the table `f` fails,
with message `msg`, and every other table succeeds. -/
def failOnly (f msg : String) : String → Option String :=
  fun t => if t = f then some msg else none

/-! ## Workload analyzer (`WorkloadAnalyzerEngine.start_analysis`)

Same trace style as the scanner: one `WorkloadOp` per persistence call,
plus an explicit `executePhase` event marking that a phase's catalog
query/aggregation actually ran (`_execute_phase`). -/

/-- `WorkloadStatus`. -/
inductive WorkloadStatus
  | pending
  | collecting
  | analyzing
  | completed
  | failed
deriving DecidableEq, Repr

/-- One observable step of `start_analysis`. -/
inductive WorkloadOp
  | createAnalysis (analysis_id database : String)
  | updateProgress (analysis_id phase : String) (progress : Nat) (status : Option WorkloadStatus)
  | executePhase (analysis_id database phase_id : String)
  | markPhaseCompleted (analysis_id phase_id : String)
  | markAnalysisCompleted (analysis_id : String)
deriving DecidableEq, Repr

/-- `WorkloadAnalyzerEngine.PHASES`: `(phase_id, description, progress)`. -/
def PHASES : List (String × String × Nat) :=
  [("query_digest", "Analyzing query patterns", 20),
   ("slow_queries", "Identifying slow queries", 35),
   ("table_io", "Collecting table I/O stats", 50),
   ("index_usage", "Analyzing index usage", 65),
   ("wait_events", "Analyzing wait events", 80),
   ("recommendations", "Generating recommendations", 100)]

/-- The phase loop.  Before each iteration the cancellation flag is
checked (indexed by the number of loop iterations begun); a completed
phase is skipped; otherwise progress is set to `progress - 15` with
status ANALYZING, the phase executes, and on success it is marked
completed and progress advances, while a phase exception only writes an
error progress update.  Returns the trace and the iteration count. -/
def runPhases (analysis_id database : String) (completed_phases : List String)
    (phaseFails : String → Bool) (cf : Nat → Bool) :
    List (String × String × Nat) → Nat → List WorkloadOp × Nat
  | [], n => ([], n)
  | (phase_id, phase_desc, progress) :: rest, n =>
    if cf n then ([], n)
    else if phase_id ∈ completed_phases then
      runPhases analysis_id database completed_phases phaseFails cf rest (n + 1)
    else
      let ops :=
        [WorkloadOp.updateProgress analysis_id phase_desc (progress - 15)
           (some .analyzing),
         WorkloadOp.executePhase analysis_id database phase_id]
        ++ (if phaseFails phase_id then
              [WorkloadOp.updateProgress analysis_id ("Error in " ++ phase_id)
                 progress none]
            else
              [WorkloadOp.markPhaseCompleted analysis_id phase_id,
               WorkloadOp.updateProgress analysis_id phase_desc progress none])
      let r := runPhases analysis_id database completed_phases phaseFails cf rest (n + 1)
      (ops ++ r.1, r.2)

/-- `WorkloadAnalyzerEngine.start_analysis`: resolve or create the
analysis, run the phase loop over `PHASES`, and mark the analysis
completed unless the cancellation flag is set at the end. -/
def start_analysis (database : String) (resume_id : Option String)
    (analysisExists : Bool) (completed_phases : List String)
    (phaseFails : String → Bool) (cancelAfter : Option Nat)
    (newAnalysisId : String) : List WorkloadOp × Except String String :=
  let setup : Except String (String × List String × List WorkloadOp) :=
    match resume_id with
    | some rid =>
      if analysisExists then .ok (rid, completed_phases, [])
      else .error ("Analysis " ++ rid ++ " not found")
    | none => .ok (newAnalysisId, [], [.createAnalysis newAnalysisId database])
  match setup with
  | .error e => ([], .error e)
  | .ok (analysis_id, completed, createOps) =>
    let cf := cancelFlag cancelAfter
    let r := runPhases analysis_id database completed phaseFails cf PHASES 0
    let endOps := if cf r.2 then [] else [WorkloadOp.markAnalysisCompleted analysis_id]
    (createOps ++ r.1 ++ endOps, .ok analysis_id)

/-- The phase ids whose catalog query actually ran during a trace. -/
def executedPhases (ops : List WorkloadOp) : List String :=
  ops.filterMap (fun op => match op with
    | .executePhase _ _ p => some p
    | _ => none)

/-! ## Derived observations used by the theorems -/

/-- The comma-joined column-name string of one index. -/
def joinedColumns (idx : TableIndex) : String :=
  String.intercalate "," (idx.columns.map (fun c => c.name))

/-- The event types logged to the `scan_logs` collection during a trace. -/
def eventTypes (ops : List PersistOp) : List String :=
  ops.filterMap (fun op => match op with
    | .logEvent _ event_type _ => some event_type
    | _ => none)

/-- Whether a persistence call writes a terminal status
(`mark_scan_completed` or `mark_scan_failed`). -/
def isTerminalOp : PersistOp → Bool
  | .markScanCompleted _ => true
  | .markScanFailed _ _ => true
  | _ => false

/-- The terminal-status writes of a trace. -/
def terminalWrites (ops : List PersistOp) : List PersistOp :=
  ops.filter isTerminalOp

/-- The per-table loop flattened over a table list with no cancellation:
each table contributes its `processTable` block and increments the
counter. -/
def flatTrace (scan_id : String) (total : Nat) (analyze : String → Option String) :
    List String → Nat → List PersistOp
  | [], _ => []
  | t :: ts, c =>
    processTable scan_id total analyze c t
      ++ flatTrace scan_id total analyze ts (c + 1)

/-- Whether a persistence call is one of the four kinds the scan loop
itself can issue (progress update, result save, unit-error record, log
event). -/
def isLoopOp : PersistOp → Bool
  | .updateProgress _ _ _ _ _ => true
  | .saveTableResult _ _ => true
  | .addTableError _ _ _ => true
  | .logEvent _ _ _ => true
  | _ => false

/-- Whether a persistence call is a progress update. -/
def isUpdateOp : PersistOp → Bool
  | .updateProgress _ _ _ _ _ => true
  | _ => false

deriving instance DecidableEq for Except

/-! # Theorems -/

/-! ## Issue-group classification lemmas -/

lemma type_of_mem_largeTableIssues {i : Issue} {ti : TableInfo} {ps : List Partition}
    (h : i ∈ largeTableIssues ti ps) : i.type = "large_table_no_partition" := by
  unfold largeTableIssues at h
  split at h
  · simp only [List.mem_singleton] at h
    subst h
    rfl
  · simp at h

lemma type_of_mem_noSecondaryIndexIssues {i : Issue} {ti : TableInfo}
    {idxs : List TableIndex} (h : i ∈ noSecondaryIndexIssues ti idxs) :
    i.type = "no_secondary_indexes" := by
  unfold noSecondaryIndexIssues at h
  split at h
  · simp only [List.mem_singleton] at h
    subst h
    rfl
  · simp at h

lemma type_of_mem_fkWithoutIndexIssues {i : Issue} {ti : TableInfo}
    {idxs : List TableIndex} {fks : List ForeignKey}
    (h : i ∈ fkWithoutIndexIssues ti idxs fks) : i.type = "fk_without_index" := by
  unfold fkWithoutIndexIssues at h
  rcases List.mem_filterMap.mp h with ⟨fk, -, hfk⟩
  split at hfk
  · simp at hfk
  · simp only [Option.some.injEq] at hfk
    subst hfk
    rfl

lemma type_of_mem_redundantIndexIssues {i : Issue} {idxs : List TableIndex}
    (h : i ∈ redundantIndexIssues idxs) : i.type = "redundant_index" := by
  unfold redundantIndexIssues at h
  rcases List.mem_flatMap.mp h with ⟨p1, -, hin⟩
  rcases List.mem_filterMap.mp hin with ⟨p2, -, hp⟩
  split at hp
  · simp only [Option.some.injEq] at hp
    subst hp
    rfl
  · simp at hp

lemma filter_detect_large (ti : TableInfo) (idxs : List TableIndex)
    (ps : List Partition) (fks : List ForeignKey) :
    (detect_table_issues ti idxs ps fks).filter
        (fun i => decide (i.type = "large_table_no_partition"))
      = largeTableIssues ti ps := by
  have h1 : List.filter (fun i => decide (i.type = "large_table_no_partition"))
      (largeTableIssues ti ps) = largeTableIssues ti ps :=
    List.filter_eq_self.mpr (fun i hi => by
      rw [type_of_mem_largeTableIssues hi]; decide)
  have h2 : List.filter (fun i => decide (i.type = "large_table_no_partition"))
      (noSecondaryIndexIssues ti idxs) = [] :=
    List.filter_eq_nil_iff.mpr (fun i hi => by
      rw [type_of_mem_noSecondaryIndexIssues hi]; decide)
  have h3 : List.filter (fun i => decide (i.type = "large_table_no_partition"))
      (fkWithoutIndexIssues ti idxs fks) = [] :=
    List.filter_eq_nil_iff.mpr (fun i hi => by
      rw [type_of_mem_fkWithoutIndexIssues hi]; decide)
  have h4 : List.filter (fun i => decide (i.type = "large_table_no_partition"))
      (redundantIndexIssues idxs) = [] :=
    List.filter_eq_nil_iff.mpr (fun i hi => by
      rw [type_of_mem_redundantIndexIssues hi]; decide)
  simp [detect_table_issues, List.filter_append, h1, h2, h3, h4]

lemma filter_detect_fk (ti : TableInfo) (idxs : List TableIndex)
    (ps : List Partition) (fks : List ForeignKey) :
    (detect_table_issues ti idxs ps fks).filter
        (fun i => decide (i.type = "fk_without_index"))
      = fkWithoutIndexIssues ti idxs fks := by
  have h1 : List.filter (fun i => decide (i.type = "fk_without_index"))
      (largeTableIssues ti ps) = [] :=
    List.filter_eq_nil_iff.mpr (fun i hi => by
      rw [type_of_mem_largeTableIssues hi]; decide)
  have h2 : List.filter (fun i => decide (i.type = "fk_without_index"))
      (noSecondaryIndexIssues ti idxs) = [] :=
    List.filter_eq_nil_iff.mpr (fun i hi => by
      rw [type_of_mem_noSecondaryIndexIssues hi]; decide)
  have h3 : List.filter (fun i => decide (i.type = "fk_without_index"))
      (fkWithoutIndexIssues ti idxs fks) = fkWithoutIndexIssues ti idxs fks :=
    List.filter_eq_self.mpr (fun i hi => by
      rw [type_of_mem_fkWithoutIndexIssues hi]; decide)
  have h4 : List.filter (fun i => decide (i.type = "fk_without_index"))
      (redundantIndexIssues idxs) = [] :=
    List.filter_eq_nil_iff.mpr (fun i hi => by
      rw [type_of_mem_redundantIndexIssues hi]; decide)
  simp [detect_table_issues, List.filter_append, h1, h2, h3, h4]

lemma filter_detect_redundant (ti : TableInfo) (idxs : List TableIndex)
    (ps : List Partition) (fks : List ForeignKey) :
    (detect_table_issues ti idxs ps fks).filter
        (fun i => decide (i.type = "redundant_index"))
      = redundantIndexIssues idxs := by
  have h1 : List.filter (fun i => decide (i.type = "redundant_index"))
      (largeTableIssues ti ps) = [] :=
    List.filter_eq_nil_iff.mpr (fun i hi => by
      rw [type_of_mem_largeTableIssues hi]; decide)
  have h2 : List.filter (fun i => decide (i.type = "redundant_index"))
      (noSecondaryIndexIssues ti idxs) = [] :=
    List.filter_eq_nil_iff.mpr (fun i hi => by
      rw [type_of_mem_noSecondaryIndexIssues hi]; decide)
  have h3 : List.filter (fun i => decide (i.type = "redundant_index"))
      (fkWithoutIndexIssues ti idxs fks) = [] :=
    List.filter_eq_nil_iff.mpr (fun i hi => by
      rw [type_of_mem_fkWithoutIndexIssues hi]; decide)
  have h4 : List.filter (fun i => decide (i.type = "redundant_index"))
      (redundantIndexIssues idxs) = redundantIndexIssues idxs :=
    List.filter_eq_self.mpr (fun i hi => by
      rw [type_of_mem_redundantIndexIssues hi]; decide)
  simp [detect_table_issues, List.filter_append, h1, h2, h3, h4]

/-! ## C6 -/

/-- C6: every table larger than 1024 MB with no partitions gets exactly
one `large_table_no_partition` issue, whose severity is `"critical"`
above 10240 MB and `"high"` otherwise; concretely, a 2048 MB
unpartitioned table yields exactly one such issue of severity `"high"`,
and a 12000 MB one yields severity `"critical"`. -/
theorem C6_large_table_no_partition (ti : TableInfo) (idxs : List TableIndex)
    (ps : List Partition) (fks : List ForeignKey) :
    (((detect_table_issues ti idxs ps fks).filter
          (fun i => decide (i.type = "large_table_no_partition"))).length
        = if 1024 < ti.total_mb ∧ ps = [] then 1 else 0)
  ∧ (∀ i ∈ detect_table_issues ti idxs ps fks,
      i.type = "large_table_no_partition" →
        i.severity = if 10240 < ti.total_mb then "critical" else "high")
  ∧ (detect_table_issues ⟨"t", 2048, 0⟩ [] [] []).map (fun i => (i.type, i.severity))
      = [("large_table_no_partition", "high")]
  ∧ (detect_table_issues ⟨"t", 12000, 0⟩ [] [] []).map (fun i => (i.type, i.severity))
      = [("large_table_no_partition", "critical")] := by
  refine ⟨?_, ?_, ?_, ?_⟩
  case refine_3 =>
    norm_num [detect_table_issues, largeTableIssues, noSecondaryIndexIssues,
      fkWithoutIndexIssues, redundantIndexIssues, indexPrefixList]
  case refine_4 =>
    norm_num [detect_table_issues, largeTableIssues, noSecondaryIndexIssues,
      fkWithoutIndexIssues, redundantIndexIssues, indexPrefixList]
  · rw [filter_detect_large ti idxs ps fks]
    unfold largeTableIssues
    split <;> rfl
  · intro i hi hty
    unfold detect_table_issues at hi
    simp only [List.mem_append] at hi
    rcases hi with ((h | h) | h) | h
    · unfold largeTableIssues at h
      split at h
      · simp only [List.mem_singleton] at h
        subst h
        rfl
      · simp at h
    · rw [type_of_mem_noSecondaryIndexIssues h] at hty
      exact absurd hty (by decide)
    · rw [type_of_mem_fkWithoutIndexIssues h] at hty
      exact absurd hty (by decide)
    · rw [type_of_mem_redundantIndexIssues h] at hty
      exact absurd hty (by decide)

/-! ## C1 -/

/-- C1 counterexample: a foreign key on column `b` that is covered only
as the second (non-leading) column of the index `(a, b)` — so it is not
covered by the first column of any index — produces NO
`fk_without_index` issue, because the code checks membership in the set
of all index columns at any position.  The claim asserts such a foreign
key is still flagged. -/
theorem C1_counterexample :
    ((detect_table_issues ⟨"orders", 0, 0⟩
        [⟨"idx_ab", false, [⟨"a", 1⟩, ⟨"b", 2⟩]⟩] []
        [⟨"b", "customers", "id"⟩]).filter
      (fun i => decide (i.type = "fk_without_index")) = [])
  ∧ (∀ idx ∈ [(⟨"idx_ab", false, [⟨"a", 1⟩, ⟨"b", 2⟩]⟩ : TableIndex)],
      ((idx.columns.map (fun c => c.name)).head? = some "b") → False)
  ∧ "b" ∈ indexColumnNames [⟨"idx_ab", false, [⟨"a", 1⟩, ⟨"b", 2⟩]⟩] := by
  have hlt : largeTableIssues ⟨"orders", 0, 0⟩ [] = [] := by
    rw [largeTableIssues, if_neg]
    intro hc
    exact absurd hc.1 (by norm_num)
  refine ⟨?_, by decide, by decide⟩
  unfold detect_table_issues
  rw [hlt]
  decide

/-- C1 (amended): the `fk_without_index` issues emitted for a table are
exactly one issue, of severity high and with the literal `CREATE INDEX`
recommendation naming the table and the column, for each foreign key
whose column is not among the columns of any index AT ANY POSITION; a
foreign key whose column appears as a non-leading column of some index
is NOT flagged. -/
theorem C1_fk_without_index (ti : TableInfo) (idxs : List TableIndex)
    (ps : List Partition) (fks : List ForeignKey) :
    (detect_table_issues ti idxs ps fks).filter
        (fun i => decide (i.type = "fk_without_index"))
      = fks.filterMap (fun fk =>
          if fk.column_name ∈ indexColumnNames idxs then none
          else some
            { type := "fk_without_index",
              severity := "high",
              message := "Foreign key " ++ fk.column_name ++ " -> "
                ++ fk.referenced_table ++ " has no index",
              recommendation := "CREATE INDEX idx_" ++ ti.table_name ++ "_"
                ++ fk.column_name ++ " ON " ++ ti.table_name
                ++ "(" ++ fk.column_name ++ ")" }) :=
  filter_detect_fk ti idxs ps fks

/-! ## C5 -/

lemma indexPrefixList_eq_map {idxs : List TableIndex}
    (h : ∀ idx ∈ idxs, idx.columns ≠ []) :
    indexPrefixList idxs = idxs.map (fun idx => (idx.name, joinedColumns idx)) := by
  induction idxs with
  | nil => rfl
  | cons idx rest ih =>
    have hne : ¬ (idx.columns.map (fun c => c.name) = []) := by
      intro hc
      exact h idx (by simp) (List.map_eq_nil_iff.mp hc)
    rw [indexPrefixList, List.filterMap_cons]
    simp only [if_neg hne]
    rw [List.map_cons]
    refine congrArg _ ?_
    exact ih (fun i hi => h i (by simp [hi]))

/-- C5 counterexample: with indexes `ia = (a)` and `iab = (a, b)` — A a
strict prefix of B — exactly one `redundant_index` issue is emitted, but
it flags `ia` (the PREFIX index A) as the redundant index to remove, not
`iab` (the longer index B) as the claim states. -/
theorem C5_counterexample :
    ((detect_table_issues ⟨"t", 0, 0⟩
        [⟨"ia", false, [⟨"a", 1⟩]⟩, ⟨"iab", false, [⟨"a", 1⟩, ⟨"b", 2⟩]⟩] [] []).filter
      (fun i => decide (i.type = "redundant_index"))
      = [{ type := "redundant_index", severity := "medium",
           message := "Index ia (a) is prefix of iab",
           recommendation := "Consider removing redundant index ia" }])
  ∧ "Consider removing redundant index ia"
      ≠ "Consider removing redundant index iab" := by
  have hlt : largeTableIssues ⟨"t", 0, 0⟩ [] = [] := by
    rw [largeTableIssues, if_neg]
    intro hc
    exact absurd hc.1 (by norm_num)
  refine ⟨?_, by decide⟩
  unfold detect_table_issues
  rw [hlt]
  decide

/-- C5 (amended): provided every index has a nonempty column list, the
`redundant_index` issues emitted for a table are exactly, for every
ordered pair of distinct positions `(A, B)` of the index list such that
B's comma-joined column string starts with A's comma-joined column
string followed by a comma, one issue of severity medium whose message
and recommendation flag A (the prefix index) as the redundant one. -/
theorem C5_redundant_index (ti : TableInfo) (idxs : List TableIndex)
    (ps : List Partition) (fks : List ForeignKey)
    (h : ∀ idx ∈ idxs, idx.columns ≠ []) :
    (detect_table_issues ti idxs ps fks).filter
        (fun i => decide (i.type = "redundant_index"))
      = (idxs.map (fun idx => (idx.name, joinedColumns idx))).enum.flatMap (fun p1 =>
          (idxs.map (fun idx => (idx.name, joinedColumns idx))).enum.filterMap (fun p2 =>
            if p1.1 ≠ p2.1 ∧ (p1.2.2 ++ ",").data.isPrefixOf p2.2.2.data then
              some { type := "redundant_index",
                     severity := "medium",
                     message := "Index " ++ p1.2.1 ++ " (" ++ p1.2.2
                       ++ ") is prefix of " ++ p2.2.1,
                     recommendation := "Consider removing redundant index " ++ p1.2.1 }
            else none)) := by
  rw [filter_detect_redundant ti idxs ps fks, redundantIndexIssues,
    indexPrefixList_eq_map h]

/-- C5 witness: the characterization applied to the concrete indexes
`(a)` and `(a, b)`, together with the spec's symmetry example that
`(a, b)` and `(a, c)` are never flagged against each other. -/
theorem C5_redundant_index_witness :
    ((detect_table_issues ⟨"t", 0, 0⟩
        [⟨"ia", false, [⟨"a", 1⟩]⟩, ⟨"iab", false, [⟨"a", 1⟩, ⟨"b", 2⟩]⟩] [] []).filter
        (fun i => decide (i.type = "redundant_index"))
      = ([(⟨"ia", false, [⟨"a", 1⟩]⟩ : TableIndex),
          ⟨"iab", false, [⟨"a", 1⟩, ⟨"b", 2⟩]⟩].map
            (fun idx => (idx.name, joinedColumns idx))).enum.flatMap (fun p1 =>
          ([(⟨"ia", false, [⟨"a", 1⟩]⟩ : TableIndex),
            ⟨"iab", false, [⟨"a", 1⟩, ⟨"b", 2⟩]⟩].map
              (fun idx => (idx.name, joinedColumns idx))).enum.filterMap (fun p2 =>
            if p1.1 ≠ p2.1 ∧ (p1.2.2 ++ ",").data.isPrefixOf p2.2.2.data then
              some { type := "redundant_index",
                     severity := "medium",
                     message := "Index " ++ p1.2.1 ++ " (" ++ p1.2.2
                       ++ ") is prefix of " ++ p2.2.1,
                     recommendation := "Consider removing redundant index " ++ p1.2.1 }
            else none)))
  ∧ redundantIndexIssues
      [⟨"iab", false, [⟨"a", 1⟩, ⟨"b", 2⟩]⟩, ⟨"iac", false, [⟨"a", 1⟩, ⟨"c", 2⟩]⟩]
      = [] :=
  ⟨C5_redundant_index ⟨"t", 0, 0⟩
      [⟨"ia", false, [⟨"a", 1⟩]⟩, ⟨"iab", false, [⟨"a", 1⟩, ⟨"b", 2⟩]⟩] [] []
      (by decide),
   by decide⟩

/-! ## C2 -/

/-- C2 counterexample: with `retry_attempts = 3` and every attempt
raising retryable error 2006, the wait before the second attempt is
`min(2^0, 10) = 1` second — not the `2^1` seconds the claim states — and
the total wait before the third attempt is 3 seconds, not `2^2`.
Moreover, an attempt ending in a query-level timeout invalidates the
pool but performs NO backoff sleep at all, contradicting the claimed
"invalidate-pool-then-backoff-then-retry" behaviour for timeouts. -/
theorem C2_counterexample :
    (waitBefore (execute_with_retry 3 (fun _ => .mysqlError 2006) 60).1 1 = 1)
  ∧ ¬ (2 ≤ waitBefore (execute_with_retry 3 (fun _ => .mysqlError 2006) 60).1 1)
  ∧ (waitBefore (execute_with_retry 3 (fun _ => .mysqlError 2006) 60).1 2 = 3)
  ∧ ¬ (4 ≤ waitBefore (execute_with_retry 3 (fun _ => .mysqlError 2006) 60).1 2)
  ∧ ((execute_with_retry 3 (fun _ => .timeout) 60).1.filter
        (fun e => match e with | PoolEvent.sleep _ => true | _ => false) = []) := by
  refine ⟨by decide, by decide, by decide, by decide, by decide⟩

/-- C2 (amended): with `retry_attempts = 3` and every attempt raising a
connector error whose code is in the retryable set, `execute_with_retry`
makes exactly 3 attempts and then raises the last error; before the
second and third attempts it sleeps `min(2^0, 10) = 1` and
`min(2^1, 10) = 2` seconds respectively (a final `min(2^2, 10) = 4`
second sleep happens after the third failure, before the error is
raised), each sleep capped at 10 seconds.  When every attempt ends in a
query-level timeout, the pool is likewise invalidated before each retry
but no backoff sleep is performed, and the timeout error is raised after
3 attempts. -/
theorem C2_retry_backoff (code : Int) (hc : code ∈ RETRYABLE_ERRORS) :
    (execute_with_retry 3 (fun _ => .mysqlError code) 60
      = ([.executeAttempt 0, .invalidatePool, .sleep 1,
          .executeAttempt 1, .invalidatePool, .sleep 2,
          .executeAttempt 2, .invalidatePool, .sleep 4],
         .error (.mysqlErr code)))
  ∧ waitBefore (execute_with_retry 3 (fun _ => .mysqlError code) 60).1 1 = 1
  ∧ waitBefore (execute_with_retry 3 (fun _ => .mysqlError code) 60).1 2 = 3
  ∧ (execute_with_retry 3 (fun _ => .timeout) 60
      = ([.executeAttempt 0, .invalidatePool,
          .executeAttempt 1, .invalidatePool,
          .executeAttempt 2, .invalidatePool],
         .error (.queryTimeout 60))) := by
  have h1 : execute_with_retry 3 (fun _ => .mysqlError code) 60
      = ([.executeAttempt 0, .invalidatePool, .sleep 1,
          .executeAttempt 1, .invalidatePool, .sleep 2,
          .executeAttempt 2, .invalidatePool, .sleep 4],
         .error (.mysqlErr code)) := by
    have hr : List.range 3 = [0, 1, 2] := rfl
    simp [execute_with_retry, hr, retryGo, hc]
  have h2 : (execute_with_retry 3 (fun _ => .mysqlError code) 60).1
      = [.executeAttempt 0, .invalidatePool, .sleep 1,
         .executeAttempt 1, .invalidatePool, .sleep 2,
         .executeAttempt 2, .invalidatePool, .sleep 4] :=
    congrArg Prod.fst h1
  refine ⟨h1, ?_, ?_, rfl⟩
  · rw [h2]
    decide
  · rw [h2]
    decide

/-- C2 witness: the amended behaviour at the concrete retryable error
code 2006. -/
theorem C2_retry_backoff_witness :
    ((2006 : Int) ∈ RETRYABLE_ERRORS)
  ∧ ((execute_with_retry 3 (fun _ => .mysqlError 2006) 60
      = ([.executeAttempt 0, .invalidatePool, .sleep 1,
          .executeAttempt 1, .invalidatePool, .sleep 2,
          .executeAttempt 2, .invalidatePool, .sleep 4],
         .error (.mysqlErr 2006)))
    ∧ waitBefore (execute_with_retry 3 (fun _ => .mysqlError 2006) 60).1 1 = 1
    ∧ waitBefore (execute_with_retry 3 (fun _ => .mysqlError 2006) 60).1 2 = 3
    ∧ (execute_with_retry 3 (fun _ => .timeout) 60
        = ([.executeAttempt 0, .invalidatePool,
            .executeAttempt 1, .invalidatePool,
            .executeAttempt 2, .invalidatePool],
           .error (.queryTimeout 60)))) :=
  ⟨by decide, C2_retry_backoff 2006 (by decide)⟩

/-! ## Scan-loop infrastructure lemmas -/

lemma chunksFuel_flatten (n : Nat) :
    ∀ (fuel : Nat) (l : List α), l.length ≤ fuel → (chunksFuel n fuel l).flatten = l := by
  intro fuel
  induction fuel with
  | zero =>
    intro l hl
    rw [Nat.le_zero] at hl
    rw [List.length_eq_zero] at hl
    subst hl
    rfl
  | succ fuel ih =>
    intro l hl
    cases l with
    | nil => rfl
    | cons x xs =>
      rw [chunksFuel, List.flatten_cons, ih (xs.drop (n - 1))]
      · rw [List.cons_append, List.take_append_drop]
      · simp only [List.length_drop]
        simp only [List.length_cons] at hl
        omega

lemma chunks_flatten (n : Nat) (l : List α) : (chunks n l).flatten = l :=
  chunksFuel_flatten n l.length l le_rfl

lemma runBatchTables_noCancel (sid : String) (total : Nat)
    (analyze : String → Option String) (ts : List String) (c : Nat) :
    runBatchTables (fun _ => false) sid total analyze ts c
      = (flatTrace sid total analyze ts c, c + ts.length) := by
  induction ts generalizing c with
  | nil => simp [runBatchTables, flatTrace]
  | cons t ts ih =>
    simp only [runBatchTables, flatTrace, ih, Bool.false_eq_true, if_false,
      List.length_cons]
    exact congrArg _ (by omega)

lemma flatTrace_append (sid : String) (total : Nat)
    (analyze : String → Option String) (l1 l2 : List String) (c : Nat) :
    flatTrace sid total analyze (l1 ++ l2) c
      = flatTrace sid total analyze l1 c
        ++ flatTrace sid total analyze l2 (c + l1.length) := by
  induction l1 generalizing c with
  | nil => simp [flatTrace]
  | cons t l1 ih =>
    have h3 : c + 1 + l1.length = c + (l1.length + 1) := by omega
    calc flatTrace sid total analyze ((t :: l1) ++ l2) c
        = processTable sid total analyze c t
            ++ flatTrace sid total analyze (l1 ++ l2) (c + 1) := rfl
      _ = processTable sid total analyze c t
            ++ (flatTrace sid total analyze l1 (c + 1)
                ++ flatTrace sid total analyze l2 (c + 1 + l1.length)) := by rw [ih]
      _ = (processTable sid total analyze c t
            ++ flatTrace sid total analyze l1 (c + 1))
            ++ flatTrace sid total analyze l2 (c + (l1.length + 1)) := by
          rw [h3, List.append_assoc]
      _ = _ := rfl

lemma runBatches_noCancel (sid : String) (total : Nat)
    (analyze : String → Option String) (bs : List (List String)) (c : Nat) :
    runBatches (fun _ => false) sid total analyze bs c
      = (flatTrace sid total analyze bs.flatten c, c + bs.flatten.length) := by
  induction bs generalizing c with
  | nil => simp [runBatches, flatTrace]
  | cons b bs ih =>
    simp only [runBatches, Bool.false_eq_true, if_false, runBatchTables_noCancel,
      ih, List.flatten_cons, flatTrace_append, List.length_append]
    exact congrArg _ (by omega)

/-- The full trace equation for a fresh, uncancelled scan of a nonempty
table list. -/
lemma start_scan_fresh_noCancel (db : String) (tables : List String)
    (analyze : String → Option String) (nid : String) (h : tables ≠ []) :
    start_scan db tables none false [] analyze none nid
      = (PersistOp.createScan nid tables.length
          :: PersistOp.logEvent nid "scan_started"
              ("Scanning " ++ toString tables.length ++ " tables in " ++ db)
          :: (flatTrace nid tables.length analyze tables 0
              ++ [PersistOp.markScanCompleted nid,
                  PersistOp.logEvent nid "scan_completed" "Scan completed"]),
         .ok nid) := by
  have hlen : tables.length ≠ 0 := fun hc => h (List.length_eq_zero.mp hc)
  have hcf : cancelFlag none = fun _ => false := rfl
  have hfilter : tables.filter (fun t => decide (t ∉ ([] : List String))) = tables :=
    List.filter_eq_self.mpr (fun t _ => by simp)
  simp only [start_scan, hlen, if_false, hcf, hfilter, List.length_nil,
    runBatches_noCancel, chunks_flatten, Bool.false_eq_true, if_false]
  simp [flatTrace]

/-! ## Per-table block and fold lemmas -/

lemma foldl_processTable_processed (sid : String) (total : Nat)
    (analyze : String → Option String) (d : ScanDoc) (c : Nat) (t : String) :
    (List.foldl applyOp d (processTable sid total analyze c t)).processed_tables
      = if (analyze t).isSome then c else c + 1 := by
  cases han : analyze t <;>
    simp [processTable, han, applyOp]

lemma foldl_flatTrace_processed (sid : String) (total : Nat)
    (analyze : String → Option String) :
    ∀ (ts : List String) (c : Nat) (d : ScanDoc) (tl : String),
      ts.getLast? = some tl →
      (List.foldl applyOp d (flatTrace sid total analyze ts c)).processed_tables
        = if (analyze tl).isSome then c + ts.length - 1 else c + ts.length := by
  intro ts
  induction ts with
  | nil => intro c d tl h; simp at h
  | cons t ts ih =>
    intro c d tl h
    cases ts with
    | nil =>
      have h' : t = tl := by simpa using h
      subst h'
      have hb : flatTrace sid total analyze [t] c
          = processTable sid total analyze c t := by
        simp [flatTrace]
      rw [hb, foldl_processTable_processed]
      cases han : analyze t <;> simp [han]
    | cons t2 ts2 =>
      rw [List.getLast?_cons_cons] at h
      rw [flatTrace, List.foldl_append, ih (c + 1) _ tl h]
      simp only [List.length_cons]
      cases han : analyze tl <;> simp [han] <;> omega

lemma addTableError_mem_flatTrace (sid : String) (total : Nat)
    (analyze : String → Option String) {t msg : String} :
    ∀ (ts : List String) (c : Nat), t ∈ ts → analyze t = some msg →
      PersistOp.addTableError sid t msg ∈ flatTrace sid total analyze ts c := by
  intro ts
  induction ts with
  | nil => intro c h; simp at h
  | cons t' ts ih =>
    intro c h hmsg
    rw [flatTrace, List.mem_append]
    rcases List.mem_cons.mp h with rfl | h'
    · exact Or.inl (by simp [processTable, hmsg])
    · exact Or.inr (ih (c + 1) h' hmsg)

lemma mem_processTable_isLoopOp {op : PersistOp} {sid : String} {total : Nat}
    {analyze : String → Option String} {c : Nat} {t : String}
    (h : op ∈ processTable sid total analyze c t) : isLoopOp op = true := by
  cases han : analyze t
  · simp only [processTable, han, List.mem_cons, List.not_mem_nil, or_false] at h
    rcases h with rfl | rfl | rfl <;> rfl
  · simp only [processTable, han, List.mem_cons, List.not_mem_nil, or_false] at h
    rcases h with rfl | rfl <;> rfl

lemma mem_flatTrace_isLoopOp {op : PersistOp} {sid : String} {total : Nat}
    {analyze : String → Option String} :
    ∀ {ts : List String} {c : Nat}, op ∈ flatTrace sid total analyze ts c →
      isLoopOp op = true := by
  intro ts
  induction ts with
  | nil => intro c h; simp [flatTrace] at h
  | cons t ts ih =>
    intro c h
    rw [flatTrace, List.mem_append] at h
    rcases h with h | h
    · exact mem_processTable_isLoopOp h
    · exact ih h

lemma mem_runBatchTables_isLoopOp {op : PersistOp} {cf : Nat → Bool} {sid : String}
    {total : Nat} {analyze : String → Option String} :
    ∀ {ts : List String} {c : Nat},
      op ∈ (runBatchTables cf sid total analyze ts c).1 → isLoopOp op = true := by
  intro ts
  induction ts with
  | nil => intro c h; simp [runBatchTables] at h
  | cons t ts ih =>
    intro c h
    rw [runBatchTables] at h
    by_cases hc : cf c
    · simp [hc] at h
    · simp only [hc, Bool.false_eq_true, if_false, List.mem_append] at h
      rcases h with h | h
      · exact mem_processTable_isLoopOp h
      · exact ih h

lemma mem_runBatches_isLoopOp {op : PersistOp} {cf : Nat → Bool} {sid : String}
    {total : Nat} {analyze : String → Option String} :
    ∀ {bs : List (List String)} {c : Nat},
      op ∈ (runBatches cf sid total analyze bs c).1 → isLoopOp op = true := by
  intro bs
  induction bs with
  | nil => intro c h; simp [runBatches] at h
  | cons b bs ih =>
    intro c h
    rw [runBatches] at h
    by_cases hc : cf c
    · simp only [hc, if_true, List.mem_singleton] at h
      subst h
      rfl
    · simp only [hc, Bool.false_eq_true, if_false, List.mem_append] at h
      rcases h with h | h
      · exact mem_runBatchTables_isLoopOp h
      · exact ih h

lemma isLoopOp_not_create {op : PersistOp} (h : isLoopOp op = true) :
    ∀ sid total, op ≠ PersistOp.createScan sid total := by
  intro sid total hc
  subst hc
  simp [isLoopOp] at h

/-- Error-log entries survive any sequence of loop ops and terminal
marks (only `createScan` resets the document). -/
lemma errors_mono :
    ∀ (ops : List PersistOp) (d : ScanDoc) (x : Option String × String),
      (∀ op ∈ ops, ∀ sid total, op ≠ PersistOp.createScan sid total) →
      x ∈ d.errors → x ∈ (ops.foldl applyOp d).errors := by
  intro ops
  induction ops with
  | nil => intro d x _ hx; exact hx
  | cons op ops ih =>
    intro d x hops hx
    rw [List.foldl_cons]
    refine ih _ x (fun o ho => hops o (List.mem_cons_of_mem _ ho)) ?_
    cases op with
    | createScan sid total => exact absurd rfl (hops _ (List.mem_cons_self _ _) sid total)
    | addTableError _ t e => simp [applyOp, hx]
    | markScanFailed _ e => simp [applyOp, hx]
    | logEvent _ _ _ => exact hx
    | saveTableResult _ _ => exact hx
    | updateProgress _ _ _ _ _ => exact hx
    | markScanCompleted _ => exact hx

lemma mem_errors_of_addTableError (sid t e : String) :
    ∀ (ops : List PersistOp) (d : ScanDoc),
      PersistOp.addTableError sid t e ∈ ops →
      (∀ op ∈ ops, ∀ sid' total', op ≠ PersistOp.createScan sid' total') →
      (some t, e) ∈ (ops.foldl applyOp d).errors := by
  intro ops
  induction ops with
  | nil => intro d h; simp at h
  | cons op ops ih =>
    intro d h hops
    rcases List.mem_cons.mp h with rfl | h'
    · rw [List.foldl_cons]
      refine errors_mono ops _ _ (fun o ho => hops o (List.mem_cons_of_mem _ ho)) ?_
      simp [applyOp]
    · exact ih _ h' (fun o ho => hops o (List.mem_cons_of_mem _ ho))

/-- Folding loop ops never leaves the document in a state other than
RUNNING once an update has occurred, and never changes the status at all
when no update occurs. -/
lemma foldl_status_of_loopOps :
    ∀ (ops : List PersistOp) (d : ScanDoc),
      (∀ op ∈ ops, isLoopOp op = true) →
      (ops.foldl applyOp d).status
        = if ops.any isUpdateOp then ScanStatus.running else d.status := by
  intro ops
  induction ops with
  | nil => intro d _; simp
  | cons op ops ih =>
    intro d hops
    rw [List.foldl_cons, ih _ (fun o ho => hops o (List.mem_cons_of_mem _ ho))]
    have hop := hops op (List.mem_cons_self _ _)
    cases op with
    | updateProgress sid t p tot b =>
      simp only [List.any_cons, isUpdateOp, Bool.true_or, if_true]
      by_cases ha : ops.any isUpdateOp = true
      · simp [ha]
      · simp [ha, applyOp]
    | createScan sid total => simp [isLoopOp] at hop
    | markScanCompleted sid => simp [isLoopOp] at hop
    | markScanFailed sid e => simp [isLoopOp] at hop
    | logEvent a b c =>
      simp only [List.any_cons, isUpdateOp, Bool.false_or]
      have : applyOp d (PersistOp.logEvent a b c) = d := rfl
      rw [this]
    | saveTableResult a b =>
      simp only [List.any_cons, isUpdateOp, Bool.false_or]
      have : applyOp d (PersistOp.saveTableResult a b) = d := rfl
      rw [this]
    | addTableError a b c =>
      simp only [List.any_cons, isUpdateOp, Bool.false_or]
      by_cases ha : ops.any isUpdateOp = true
      · simp [ha]
      · simp [ha, applyOp]

/-- `savedTables` of the flattened loop: exactly the tables whose
analysis succeeded. -/
lemma savedTables_flatTrace (sid : String) (total : Nat)
    (analyze : String → Option String) :
    ∀ (ts : List String) (c : Nat),
      savedTables (flatTrace sid total analyze ts c)
        = ts.filter (fun t => (analyze t).isNone) := by
  intro ts
  induction ts with
  | nil => intro c; rfl
  | cons t ts ih =>
    intro c
    simp only [savedTables] at ih ⊢
    rw [flatTrace, List.filterMap_append, ih (c + 1), List.filter_cons]
    cases han : analyze t <;> simp [processTable, han]

/-! ## C3 -/

/-- C3 counterexample: a fresh scan of the single table `t1` whose
analysis raises `boom` still completes (status COMPLETED, the error is
in the log), but the persisted `processed_tables` counter ends at 0, not
at `total_tables = 1`: the counter increment after a failed table is
only in memory and no later progress write publishes it when the failing
table is the last one processed. -/
theorem C3_counterexample :
    (replayScan (start_scan "db" ["t1"] none false []
        (failOnly "t1" "boom") none "scan_a").1).status = ScanStatus.completed
  ∧ (some "t1", "boom") ∈ (replayScan (start_scan "db" ["t1"] none false []
        (failOnly "t1" "boom") none "scan_a").1).errors
  ∧ (replayScan (start_scan "db" ["t1"] none false []
        (failOnly "t1" "boom") none "scan_a").1).processed_tables = 0
  ∧ ¬ ((replayScan (start_scan "db" ["t1"] none false []
        (failOnly "t1" "boom") none "scan_a").1).processed_tables
        = (["t1"] : List String).length) := by
  refine ⟨by decide, by decide, by decide, by decide⟩

/-- C3 (amended): if during a fresh, uncancelled scan exactly the table
`f` raises an exception, then the error is recorded in the job's error
log via `add_table_error`, the scan continues and ends with status
COMPLETED, and the persisted `processed_tables` counter ends at
`total_tables` when some table is processed after `f`, but at
`total_tables - 1` when `f` is the last table processed. -/
theorem C3_unit_isolation (db : String) (tables : List String) (f msg nid : String)
    (hf : f ∈ tables) (_hnd : tables.Nodup) :
    PersistOp.addTableError nid f msg
      ∈ (start_scan db tables none false [] (failOnly f msg) none nid).1
  ∧ (some f, msg) ∈ (replayScan
      (start_scan db tables none false [] (failOnly f msg) none nid).1).errors
  ∧ (replayScan
      (start_scan db tables none false [] (failOnly f msg) none nid).1).status
      = ScanStatus.completed
  ∧ (replayScan
      (start_scan db tables none false [] (failOnly f msg) none nid).1).processed_tables
      = (if tables.getLast? = some f then tables.length - 1 else tables.length) := by
  have hne : tables ≠ [] := List.ne_nil_of_mem hf
  have hmsg : failOnly f msg f = some msg := by simp [failOnly]
  rw [start_scan_fresh_noCancel db tables (failOnly f msg) nid hne]
  have hmemflat : PersistOp.addTableError nid f msg
      ∈ flatTrace nid tables.length (failOnly f msg) tables 0 :=
    addTableError_mem_flatTrace nid tables.length (failOnly f msg) tables 0 hf hmsg
  refine ⟨?_, ?_, ?_, ?_⟩
  · exact List.mem_cons_of_mem _ (List.mem_cons_of_mem _
      (List.mem_append.mpr (Or.inl hmemflat)))
  · show (some f, msg) ∈ (List.foldl applyOp (initialScanDoc 0) _).errors
    rw [List.foldl_cons]
    refine mem_errors_of_addTableError nid f msg _ _ ?_ ?_
    · exact List.mem_cons_of_mem _ (List.mem_append.mpr (Or.inl hmemflat))
    · intro op hop sid' total' heq
      subst heq
      rcases List.mem_cons.mp hop with h | h
      · exact absurd h.symm (by simp)
      · rcases List.mem_append.mp h with h | h
        · exact absurd rfl (isLoopOp_not_create (mem_flatTrace_isLoopOp h) sid' total')
        · rcases List.mem_cons.mp h with h | h
          · exact absurd h.symm (by simp)
          · rcases List.mem_cons.mp h with h | h
            · exact absurd h.symm (by simp)
            · simp at h
  · show (List.foldl applyOp (initialScanDoc 0) _).status = _
    rw [show PersistOp.createScan nid tables.length
          :: PersistOp.logEvent nid "scan_started"
              ("Scanning " ++ toString tables.length ++ " tables in " ++ db)
          :: (flatTrace nid tables.length (failOnly f msg) tables 0
              ++ [PersistOp.markScanCompleted nid,
                  PersistOp.logEvent nid "scan_completed" "Scan completed"])
        = (PersistOp.createScan nid tables.length
            :: PersistOp.logEvent nid "scan_started"
                ("Scanning " ++ toString tables.length ++ " tables in " ++ db)
            :: flatTrace nid tables.length (failOnly f msg) tables 0)
          ++ [PersistOp.markScanCompleted nid,
              PersistOp.logEvent nid "scan_completed" "Scan completed"]
      from by simp]
    rw [List.foldl_append]
    rfl
  · show (List.foldl applyOp (initialScanDoc 0) _).processed_tables = _
    rw [show PersistOp.createScan nid tables.length
          :: PersistOp.logEvent nid "scan_started"
              ("Scanning " ++ toString tables.length ++ " tables in " ++ db)
          :: (flatTrace nid tables.length (failOnly f msg) tables 0
              ++ [PersistOp.markScanCompleted nid,
                  PersistOp.logEvent nid "scan_completed" "Scan completed"])
        = (PersistOp.createScan nid tables.length
            :: PersistOp.logEvent nid "scan_started"
                ("Scanning " ++ toString tables.length ++ " tables in " ++ db)
            :: flatTrace nid tables.length (failOnly f msg) tables 0)
          ++ [PersistOp.markScanCompleted nid,
              PersistOp.logEvent nid "scan_completed" "Scan completed"]
      from by simp]
    rw [List.foldl_append]
    have hproj : ∀ d : ScanDoc,
        (List.foldl applyOp d
          [PersistOp.markScanCompleted nid,
           PersistOp.logEvent nid "scan_completed" "Scan completed"]).processed_tables
          = d.processed_tables := by
      intro d; rfl
    rw [hproj, List.foldl_cons, List.foldl_cons]
    obtain ⟨tl, htl⟩ := Option.isSome_iff_exists.mp
      (List.getLast?_isSome.mpr hne)
    rw [foldl_flatTrace_processed nid tables.length (failOnly f msg) tables 0 _ tl htl]
    by_cases hft : tl = f
    · subst hft
      rw [if_pos htl]
      simp [failOnly]
    · have h1 : (failOnly f msg tl).isSome = false := by
        simp [failOnly, hft]
      have h2 : ¬ (tables.getLast? = some f) := by
        rw [htl]
        intro hc
        exact hft (by injection hc)
      rw [if_neg h2, h1]
      simp

/-- C3 witness: the amended behaviour on the concrete three-table scan
where the middle table `tB` fails: the persisted counter does reach
`total_tables` because `tC` is processed after the failure. -/
theorem C3_unit_isolation_witness :
    PersistOp.addTableError "scan_w" "tB" "boom"
      ∈ (start_scan "db" ["tA", "tB", "tC"] none false []
          (failOnly "tB" "boom") none "scan_w").1
  ∧ (some "tB", "boom") ∈ (replayScan
      (start_scan "db" ["tA", "tB", "tC"] none false []
        (failOnly "tB" "boom") none "scan_w").1).errors
  ∧ (replayScan
      (start_scan "db" ["tA", "tB", "tC"] none false []
        (failOnly "tB" "boom") none "scan_w").1).status
      = ScanStatus.completed
  ∧ (replayScan
      (start_scan "db" ["tA", "tB", "tC"] none false []
        (failOnly "tB" "boom") none "scan_w").1).processed_tables
      = (if (["tA", "tB", "tC"] : List String).getLast? = some "tB"
         then (["tA", "tB", "tC"] : List String).length - 1
         else (["tA", "tB", "tC"] : List String).length) :=
  C3_unit_isolation "db" ["tA", "tB", "tC"] "tB" "boom" "scan_w"
    (by decide) (by decide)

/-! ## C4 -/

/-- C4 counterexample: starting a fresh scan of a database with zero
tables raises the error to the caller, but NO job document is written at
all — in particular no job is marked FAILED and no error is appended to
any error log, contrary to the claim. -/
theorem C4_counterexample :
    start_scan "db" [] none false [] (fun _ => none) none "scan_n"
      = ([], Except.error "No tables found in database db")
  ∧ (replayScan (start_scan "db" [] none false []
      (fun _ => none) none "scan_n").1).status ≠ ScanStatus.failed
  ∧ (replayScan (start_scan "db" [] none false []
      (fun _ => none) none "scan_n").1).errors = []
  ∧ terminalWrites (start_scan "db" [] none false []
      (fun _ => none) none "scan_n").1 = [] := by
  refine ⟨by decide, by decide, by decide, by decide⟩

/-- C4 (amended): both job-level fatal preconditions — zero tables in
the target database, and a `resume_scan_id` that does not correspond to
an existing job — raise the error to the caller before any persistence
write happens (the returned trace is empty); in particular no unit is
processed and no job is marked FAILED (in the fresh zero-table case no
job document even exists). -/
theorem C4_fatal_preconditions (db rid nid : String) (processedSet : List String)
    (analyze : String → Option String) (cancelAfter : Option Nat) :
    (∀ (resume : Option String) (scanExists : Bool),
      start_scan db [] resume scanExists processedSet analyze cancelAfter nid
        = ([], .error ("No tables found in database " ++ db)))
  ∧ (∀ (tables : List String), tables ≠ [] →
      start_scan db tables (some rid) false processedSet analyze cancelAfter nid
        = ([], .error ("Scan " ++ rid ++ " not found"))) := by
  constructor
  · intro resume scanExists
    simp [start_scan]
  · intro tables h
    have hlen : ¬ (tables.length = 0) := fun hc => h (List.length_eq_zero.mp hc)
    rw [start_scan, if_neg hlen]
    simp

/-- C4 witness: the two fatal preconditions at concrete inputs. -/
theorem C4_fatal_preconditions_witness :
    start_scan "db" [] none false [] (fun _ => none) none "scan_n"
      = ([], .error ("No tables found in database " ++ "db"))
  ∧ start_scan "db" ["t1"] (some "missing") false [] (fun _ => none) none "scan_n"
      = ([], .error ("Scan " ++ "missing" ++ " not found")) :=
  ⟨(C4_fatal_preconditions "db" "missing" "scan_n" [] (fun _ => none) none).1 none false,
   (C4_fatal_preconditions "db" "missing" "scan_n" [] (fun _ => none) none).2
     ["t1"] (by decide)⟩

/-! ## C9 -/

/-- C9: when analyzing a table raises an exception, the failure path
writes only the pre-progress update (with the unincremented counter) and
the `add_table_error` record: no `TableScanResult` is upserted and no
progress write carrying the incremented counter is issued for that
table, while the in-memory counter still advances.  Consequently the
table is absent from `get_processed_tables` for that scan, so a
subsequent resume of the same scan id puts it back into
`tables_to_process` and re-analyzes it. -/
theorem C9_failed_table_not_persisted (db : String) (tables : List String)
    (f msg nid : String) (hf : f ∈ tables) (_hnd : tables.Nodup) :
    (∀ (c total : Nat) (sid : String),
      processTable sid total (failOnly f msg) c f
        = [PersistOp.updateProgress sid f c total false,
           PersistOp.addTableError sid f msg])
  ∧ (∀ sid, PersistOp.saveTableResult sid f
      ∉ (start_scan db tables none false [] (failOnly f msg) none nid).1)
  ∧ f ∉ savedTables (start_scan db tables none false [] (failOnly f msg) none nid).1
  ∧ f ∈ tables.filter (fun t =>
      decide (t ∉ savedTables
        (start_scan db tables none false [] (failOnly f msg) none nid).1)) := by
  have hne : tables ≠ [] := List.ne_nil_of_mem hf
  rw [start_scan_fresh_noCancel db tables (failOnly f msg) nid hne]
  have hsv : savedTables
      (PersistOp.createScan nid tables.length
        :: PersistOp.logEvent nid "scan_started"
            ("Scanning " ++ toString tables.length ++ " tables in " ++ db)
        :: (flatTrace nid tables.length (failOnly f msg) tables 0
            ++ [PersistOp.markScanCompleted nid,
                PersistOp.logEvent nid "scan_completed" "Scan completed"]))
      = tables.filter (fun t => (failOnly f msg t).isNone) := by
    simp only [savedTables, List.filterMap_cons, List.filterMap_append]
    rw [← savedTables, savedTables_flatTrace]
    simp
  have hnotin : f ∉ tables.filter (fun t => (failOnly f msg t).isNone) := by
    intro hc
    have := (List.mem_filter.mp hc).2
    simp [failOnly] at this
  refine ⟨?_, ?_, ?_, ?_⟩
  · intro c total sid
    simp [processTable, failOnly]
  · intro sid hmem
    refine hnotin ?_
    rw [← hsv]
    exact List.mem_filterMap.mpr ⟨_, hmem, rfl⟩
  · rw [hsv]
    exact hnotin
  · rw [hsv]
    exact List.mem_filter.mpr ⟨hf, decide_eq_true hnotin⟩

/-- C9 witness: the concrete two-table scan where `tA` fails. -/
theorem C9_failed_table_not_persisted_witness :
    (∀ (c total : Nat) (sid : String),
      processTable sid total (failOnly "tA" "boom") c "tA"
        = [PersistOp.updateProgress sid "tA" c total false,
           PersistOp.addTableError sid "tA" "boom"])
  ∧ (∀ sid, PersistOp.saveTableResult sid "tA"
      ∉ (start_scan "db" ["tA", "tB"] none false []
          (failOnly "tA" "boom") none "scan_w9").1)
  ∧ "tA" ∉ savedTables (start_scan "db" ["tA", "tB"] none false []
      (failOnly "tA" "boom") none "scan_w9").1
  ∧ "tA" ∈ (["tA", "tB"] : List String).filter (fun t =>
      decide (t ∉ savedTables
        (start_scan "db" ["tA", "tB"] none false []
          (failOnly "tA" "boom") none "scan_w9").1)) :=
  C9_failed_table_not_persisted "db" ["tA", "tB"] "tA" "boom" "scan_w9"
    (by decide) (by decide)

/-! ## C10 -/

lemma runBatchTables_count_ge (k : Nat) (sid : String) (total : Nat)
    (analyze : String → Option String) :
    ∀ (ts : List String) (c : Nat),
      min (c + ts.length) k
        ≤ (runBatchTables (cancelFlag (some k)) sid total analyze ts c).2 := by
  intro ts
  induction ts with
  | nil =>
    intro c
    simp only [runBatchTables, List.length_nil, Nat.add_zero]
    omega
  | cons t ts ih =>
    intro c
    rw [runBatchTables]
    by_cases hkc : k ≤ c
    · rw [show cancelFlag (some k) c = true from decide_eq_true hkc]
      simp only [if_true, List.length_cons]
      omega
    · rw [show cancelFlag (some k) c = false from decide_eq_false hkc]
      simp only [Bool.false_eq_true, if_false, List.length_cons]
      have h1 := ih (c + 1)
      omega

lemma runBatches_count_ge (k : Nat) (sid : String) (total : Nat)
    (analyze : String → Option String) :
    ∀ (bs : List (List String)) (c : Nat),
      min (c + bs.flatten.length) k
        ≤ (runBatches (cancelFlag (some k)) sid total analyze bs c).2 := by
  intro bs
  induction bs with
  | nil =>
    intro c
    simp only [runBatches, List.flatten_nil, List.length_nil, Nat.add_zero]
    omega
  | cons b bs ih =>
    intro c
    rw [runBatches]
    by_cases hkc : k ≤ c
    · rw [show cancelFlag (some k) c = true from decide_eq_true hkc]
      simp only [if_true, List.flatten_cons, List.length_append]
      omega
    · rw [show cancelFlag (some k) c = false from decide_eq_false hkc]
      simp only [Bool.false_eq_true, if_false, List.flatten_cons, List.length_append]
      have h1 := runBatchTables_count_ge k sid total analyze b c
      have h2 := ih (runBatchTables (cancelFlag (some k)) sid total analyze b c).2
      omega

lemma runBatchTables_count_le (cf : Nat → Bool) (sid : String) (total : Nat)
    (analyze : String → Option String) :
    ∀ (ts : List String) (c : Nat),
      c ≤ (runBatchTables cf sid total analyze ts c).2
        ∧ (runBatchTables cf sid total analyze ts c).2 ≤ c + ts.length := by
  intro ts
  induction ts with
  | nil => intro c; simp [runBatchTables]
  | cons t ts ih =>
    intro c
    rw [runBatchTables]
    by_cases hc : cf c
    · simp only [hc, if_true, List.length_cons]
      omega
    · simp only [hc, Bool.false_eq_true, if_false, List.length_cons]
      have := ih (c + 1)
      omega

lemma runBatchTables_any_update (cf : Nat → Bool) (sid : String) (total : Nat)
    (analyze : String → Option String) :
    ∀ (ts : List String) (c : Nat),
      (runBatchTables cf sid total analyze ts c).2 ≠ c →
      (runBatchTables cf sid total analyze ts c).1.any isUpdateOp = true := by
  intro ts
  induction ts with
  | nil => intro c h; simp [runBatchTables] at h
  | cons t ts ih =>
    intro c h
    rw [runBatchTables]
    by_cases hc : cf c
    · rw [runBatchTables] at h
      simp [hc] at h
    · simp only [hc, Bool.false_eq_true, if_false, List.any_append]
      have hblock : (processTable sid total analyze c t).any isUpdateOp = true := by
        cases han : analyze t <;> simp [processTable, han, isUpdateOp]
      simp [hblock]

lemma runBatches_any_update (cf : Nat → Bool) (sid : String) (total : Nat)
    (analyze : String → Option String) :
    ∀ (bs : List (List String)) (c : Nat),
      (runBatches cf sid total analyze bs c).2 ≠ c →
      (runBatches cf sid total analyze bs c).1.any isUpdateOp = true := by
  intro bs
  induction bs with
  | nil => intro c h; simp [runBatches] at h
  | cons b bs ih =>
    intro c h
    rw [runBatches]
    by_cases hc : cf c
    · rw [runBatches] at h
      simp [hc] at h
    · rw [runBatches] at h
      simp only [hc, Bool.false_eq_true, if_false] at h ⊢
      simp only [List.any_append]
      by_cases hrb : (runBatchTables cf sid total analyze b c).2 = c
      · rw [hrb] at h ⊢
        rw [ih _ h]
        simp
      · rw [runBatchTables_any_update cf sid total analyze b c hrb]
        simp

lemma isLoopOp_not_terminal {op : PersistOp} (h : isLoopOp op = true) :
    isTerminalOp op = false := by
  cases op <;> first
    | rfl
    | (exfalso; simp [isLoopOp] at h)

/-- The trace equation for a fresh scan whose cancellation flag is set
by the time the batch loop finishes: the completion block is skipped. -/
lemma start_scan_fresh_cancelled (db : String) (tables : List String)
    (analyze : String → Option String) (nid : String) (k : Nat)
    (hlen0 : ¬ (tables.length = 0))
    (hcf2 : cancelFlag (some k)
        (runBatches (cancelFlag (some k)) nid tables.length analyze
          (chunks BATCH_SIZE tables) 0).2 = true) :
    start_scan db tables none false [] analyze (some k) nid
      = (PersistOp.createScan nid tables.length
          :: PersistOp.logEvent nid "scan_started"
              ("Scanning " ++ toString tables.length ++ " tables in " ++ db)
          :: (runBatches (cancelFlag (some k)) nid tables.length analyze
              (chunks BATCH_SIZE tables) 0).1,
         .ok nid) := by
  have hfilter : tables.filter (fun t => decide (t ∉ ([] : List String))) = tables :=
    List.filter_eq_self.mpr (fun t _ => by simp)
  simp only [start_scan, hlen0, if_false, hfilter, List.length_nil, hcf2, if_true]
  simp

/-- C10 counterexample: a two-table fresh scan cancelled after the first
table (the flag is observed at the per-table check inside the one and
only batch): the scan stops — `t2` is never saved — but NO
`scan_cancelled` event is logged, because the log is only written at a
batch-boundary check and no further batch boundary is reached.  The
status and table set show cancellation took effect; the event types
logged are only `scan_started`. -/
theorem C10_counterexample :
    (start_scan "db" ["t1", "t2"] none false [] (fun _ => none) (some 1) "scan_x").1
      = [PersistOp.createScan "scan_x" 2,
         PersistOp.logEvent "scan_x" "scan_started" "Scanning 2 tables in db",
         PersistOp.updateProgress "scan_x" "t1" 0 2 false,
         PersistOp.saveTableResult "scan_x" "t1",
         PersistOp.updateProgress "scan_x" "t1" 1 2 true]
  ∧ eventTypes (start_scan "db" ["t1", "t2"] none false []
      (fun _ => none) (some 1) "scan_x").1 = ["scan_started"]
  ∧ savedTables (start_scan "db" ["t1", "t2"] none false []
      (fun _ => none) (some 1) "scan_x").1 = ["t1"]
  ∧ (replayScan (start_scan "db" ["t1", "t2"] none false []
      (fun _ => none) (some 1) "scan_x").1).status = ScanStatus.running := by
  refine ⟨by decide, by decide, by decide, by decide⟩

/-- C10 (amended): when `cancel()` takes effect during a fresh scan
(observed once `k` tables are processed, `1 ≤ k ≤` the number of
tables), no terminal or paused status is ever written: the trace
contains no `mark_scan_completed` and no `mark_scan_failed`, and the
replayed job document's status is RUNNING — whatever the last progress
update wrote.  (A `scan_cancelled` log event is written only when a
batch-boundary check observes the flag, which does not always happen.) -/
theorem C10_cancel_no_terminal_status (db : String) (tables : List String)
    (analyze : String → Option String) (nid : String) (k : Nat)
    (hk1 : 1 ≤ k) (hk2 : k ≤ tables.length) :
    terminalWrites (start_scan db tables none false [] analyze (some k) nid).1 = []
  ∧ (replayScan (start_scan db tables none false [] analyze (some k) nid).1).status
      = ScanStatus.running := by
  have hlen0 : ¬ (tables.length = 0) := by omega
  have hflat : (chunks BATCH_SIZE tables).flatten = tables := chunks_flatten _ _
  have hge : k ≤ (runBatches (cancelFlag (some k)) nid tables.length analyze
      (chunks BATCH_SIZE tables) 0).2 := by
    have h := runBatches_count_ge k nid tables.length analyze (chunks BATCH_SIZE tables) 0
    rw [hflat] at h
    omega
  have hcf2 : cancelFlag (some k)
      (runBatches (cancelFlag (some k)) nid tables.length analyze
        (chunks BATCH_SIZE tables) 0).2 = true := decide_eq_true hge
  rw [start_scan_fresh_cancelled db tables analyze nid k hlen0 hcf2]
  have hany : (runBatches (cancelFlag (some k)) nid tables.length analyze
      (chunks BATCH_SIZE tables) 0).1.any isUpdateOp = true := by
    refine runBatches_any_update _ nid tables.length analyze _ 0 ?_
    omega
  constructor
  · rw [terminalWrites]
    rw [List.filter_cons_of_neg (by simp [isTerminalOp]),
      List.filter_cons_of_neg (by simp [isTerminalOp])]
    refine List.filter_eq_nil_iff.mpr ?_
    intro op hop
    rw [isLoopOp_not_terminal (mem_runBatches_isLoopOp hop)]
    simp
  · show (List.foldl applyOp (initialScanDoc 0) _).status = _
    rw [List.foldl_cons, List.foldl_cons,
      foldl_status_of_loopOps _ _ (fun op hop => mem_runBatches_isLoopOp hop), hany]
    rfl

/-- C10 witness: the amended no-terminal-status property at the concrete
cancelled two-table scan. -/
theorem C10_cancel_no_terminal_status_witness :
    terminalWrites (start_scan "db" ["t1", "t2"] none false []
      (fun _ => none) (some 1) "scan_x").1 = []
  ∧ (replayScan (start_scan "db" ["t1", "t2"] none false []
      (fun _ => none) (some 1) "scan_x").1).status = ScanStatus.running :=
  C10_cancel_no_terminal_status "db" ["t1", "t2"] (fun _ => none) "scan_x" 1
    (by decide) (by decide)

/-! ## C7 -/

lemma runBatches_count_le (cf : Nat → Bool) (sid : String) (total : Nat)
    (analyze : String → Option String) :
    ∀ (bs : List (List String)) (c : Nat),
      c ≤ (runBatches cf sid total analyze bs c).2
        ∧ (runBatches cf sid total analyze bs c).2 ≤ c + bs.flatten.length := by
  intro bs
  induction bs with
  | nil => intro c; simp [runBatches]
  | cons b bs ih =>
    intro c
    rw [runBatches]
    by_cases hc : cf c
    · simp only [hc, if_true, List.flatten_cons, List.length_append]
      omega
    · simp only [hc, Bool.false_eq_true, if_false, List.flatten_cons,
        List.length_append]
      have h1 := runBatchTables_count_le cf sid total analyze b c
      have h2 := ih (runBatchTables cf sid total analyze b c).2
      omega

lemma progressWrites_processTable (sid : String) (total : Nat)
    (analyze : String → Option String) (c : Nat) (t : String) :
    progressWrites (processTable sid total analyze c t)
      = if (analyze t).isSome then [(c, total)]
        else [(c, total), (c + 1, total)] := by
  cases han : analyze t <;> simp [processTable, han, progressWrites]

lemma runBatchTables_writes (cf : Nat → Bool) (sid : String) (total : Nat)
    (analyze : String → Option String) :
    ∀ (ts : List String) (c : Nat),
      List.Pairwise (· ≤ ·)
        ((progressWrites (runBatchTables cf sid total analyze ts c).1).map Prod.fst)
    ∧ ∀ pr ∈ progressWrites (runBatchTables cf sid total analyze ts c).1,
        pr.2 = total ∧ c ≤ pr.1
          ∧ pr.1 ≤ (runBatchTables cf sid total analyze ts c).2 := by
  intro ts
  induction ts with
  | nil =>
    intro c
    simp [runBatchTables, progressWrites]
  | cons t ts ih =>
    intro c
    rw [runBatchTables]
    by_cases hc : cf c
    · simp [hc, progressWrites]
    · simp only [hc, Bool.false_eq_true, if_false]
      obtain ⟨ihS, ihB⟩ := ih (c + 1)
      have hcount := runBatchTables_count_le cf sid total analyze ts (c + 1)
      have hblock : ∀ pr ∈ progressWrites (processTable sid total analyze c t),
          pr.2 = total ∧ c ≤ pr.1 ∧ pr.1 ≤ c + 1 := by
        intro pr hpr
        rw [progressWrites_processTable] at hpr
        rcases hpos : (analyze t).isSome
        · rw [hpos] at hpr
          simp only [Bool.false_eq_true, if_false, List.mem_cons,
            List.mem_singleton, List.not_mem_nil, or_false] at hpr
          rcases hpr with rfl | rfl <;> simp
        · rw [hpos] at hpr
          simp only [if_true, List.mem_singleton] at hpr
          subst hpr
          simp
      have hblockS : List.Pairwise (· ≤ ·)
          ((progressWrites (processTable sid total analyze c t)).map Prod.fst) := by
        rw [progressWrites_processTable]
        rcases (analyze t).isSome <;> simp
      constructor
      · rw [progressWrites, List.filterMap_append, ← progressWrites, ← progressWrites,
          List.map_append, List.pairwise_append]
        refine ⟨hblockS, ihS, ?_⟩
        intro a ha b hb
        rcases List.mem_map.mp ha with ⟨pra, hpra, rfl⟩
        rcases List.mem_map.mp hb with ⟨prb, hprb, rfl⟩
        have h1 := (hblock pra hpra).2.2
        have h2 := (ihB prb hprb).2.1
        omega
      · intro pr hpr
        rw [progressWrites, List.filterMap_append, ← progressWrites,
          ← progressWrites, List.mem_append] at hpr
        rcases hpr with hpr | hpr
        · have h1 := hblock pr hpr
          refine ⟨h1.1, h1.2.1, ?_⟩
          omega
        · have h1 := ihB pr hpr
          refine ⟨h1.1, by omega, h1.2.2⟩

lemma runBatches_writes (cf : Nat → Bool) (sid : String) (total : Nat)
    (analyze : String → Option String) :
    ∀ (bs : List (List String)) (c : Nat),
      List.Pairwise (· ≤ ·)
        ((progressWrites (runBatches cf sid total analyze bs c).1).map Prod.fst)
    ∧ ∀ pr ∈ progressWrites (runBatches cf sid total analyze bs c).1,
        pr.2 = total ∧ c ≤ pr.1
          ∧ pr.1 ≤ (runBatches cf sid total analyze bs c).2 := by
  intro bs
  induction bs with
  | nil =>
    intro c
    simp [runBatches, progressWrites]
  | cons b bs ih =>
    intro c
    rw [runBatches]
    by_cases hc : cf c
    · simp [hc, progressWrites]
    · simp only [hc, Bool.false_eq_true, if_false]
      obtain ⟨ihS, ihB⟩ := ih (runBatchTables cf sid total analyze b c).2
      obtain ⟨btS, btB⟩ := runBatchTables_writes cf sid total analyze b c
      have hcount := runBatches_count_le cf sid total analyze bs
        (runBatchTables cf sid total analyze b c).2
      have hcount2 := runBatchTables_count_le cf sid total analyze b c
      constructor
      · rw [progressWrites, List.filterMap_append, ← progressWrites, ← progressWrites,
          List.map_append, List.pairwise_append]
        refine ⟨btS, ihS, ?_⟩
        intro a ha b' hb'
        rcases List.mem_map.mp ha with ⟨pra, hpra, rfl⟩
        rcases List.mem_map.mp hb' with ⟨prb, hprb, rfl⟩
        have h1 := (btB pra hpra).2.2
        have h2 := (ihB prb hprb).2.1
        omega
      · intro pr hpr
        rw [progressWrites, List.filterMap_append, ← progressWrites,
          ← progressWrites, List.mem_append] at hpr
        rcases hpr with hpr | hpr
        · have h1 := btB pr hpr
          refine ⟨h1.1, h1.2.1, ?_⟩
          have := h1.2.2
          omega
        · have h1 := ihB pr hpr
          refine ⟨h1.1, by omega, h1.2.2⟩

lemma processed_filter_length_le (tables processedSet : List String)
    (hsub : ∀ t ∈ processedSet, t ∈ tables) (hpnd : processedSet.Nodup) :
    processedSet.length
      + (tables.filter (fun t => decide (t ∉ processedSet))).length
      ≤ tables.length := by
  have hperm := List.filter_append_perm (fun t => decide (t ∈ processedSet)) tables
  have hlen := hperm.length_eq
  rw [List.length_append] at hlen
  have hps : processedSet.length
      ≤ (tables.filter (fun t => decide (t ∈ processedSet))).length := by
    refine List.Subperm.length_le (List.Nodup.subperm hpnd ?_)
    intro t ht
    exact List.mem_filter.mpr ⟨hsub t ht, decide_eq_true ht⟩
  have hnot : tables.filter (fun t => decide (t ∉ processedSet))
      = tables.filter (fun x => !(decide (x ∈ processedSet))) := by
    refine List.filter_congr ?_
    intro t _
    simp
  rw [hnot]
  omega

/-- The fields written by one `update_scan_progress` call: after
replaying any trace prefix ending in an update, the persisted
`processed_tables` is exactly the written counter and
`progress_percentage` is exactly `round(processed/total*100, 2)` of the
written pair. -/
lemma replay_update_fields (pre : List PersistOp) (sid t : String)
    (p tot : Nat) (b : Bool) (htot : 0 < tot) :
    (replayScan (pre ++ [PersistOp.updateProgress sid t p tot b])).processed_tables = p
  ∧ (replayScan (pre ++ [PersistOp.updateProgress sid t p tot b])).progress_percentage
      = pyRound2 (((p : Rat) / (tot : Rat)) * 100) := by
  rw [replayScan, List.foldl_append]
  constructor
  · rfl
  · show (if 0 < tot then _ else _) = _
    rw [if_pos htot]

lemma progressWrites_cons_create (sid : String) (total : Nat) (rest : List PersistOp) :
    progressWrites (PersistOp.createScan sid total :: rest) = progressWrites rest := rfl

lemma progressWrites_cons_log (sid ty msg : String) (rest : List PersistOp) :
    progressWrites (PersistOp.logEvent sid ty msg :: rest) = progressWrites rest := rfl

lemma progressWrites_append (l1 l2 : List PersistOp) :
    progressWrites (l1 ++ l2) = progressWrites l1 ++ progressWrites l2 :=
  List.filterMap_append l1 l2 _

lemma progressWrites_endOps (P : Prop) [Decidable P] (sid : String) :
    progressWrites (if P then []
      else [PersistOp.markScanCompleted sid,
            PersistOp.logEvent sid "scan_completed" "Scan completed"]) = [] := by
  split <;> rfl

/-- The trace of a fresh scan of a nonempty table list, for an arbitrary
cancellation behaviour: the `processedSet` and `scanExists` arguments
are irrelevant because the fresh path uses an empty processed set. -/
lemma start_scan_fresh_trace (db : String) (tables : List String)
    (analyze : String → Option String) (cancelAfter : Option Nat) (nid : String)
    (scanExists : Bool) (processedSet : List String)
    (h0 : ¬ (tables.length = 0)) :
    (start_scan db tables none scanExists processedSet analyze cancelAfter nid).1
      = [PersistOp.createScan nid tables.length]
        ++ [PersistOp.logEvent nid "scan_started"
            ("Scanning " ++ toString tables.length ++ " tables in " ++ db)]
        ++ (runBatches (cancelFlag cancelAfter) nid tables.length analyze
            (chunks BATCH_SIZE (tables.filter (fun t => decide (t ∉ ([] : List String)))))
            (List.length ([] : List String))).1
        ++ (if cancelFlag cancelAfter
              (runBatches (cancelFlag cancelAfter) nid tables.length analyze
                (chunks BATCH_SIZE
                  (tables.filter (fun t => decide (t ∉ ([] : List String)))))
                (List.length ([] : List String))).2 = true then []
            else [PersistOp.markScanCompleted nid,
                  PersistOp.logEvent nid "scan_completed" "Scan completed"]) := by
  rw [start_scan.eq_def, if_neg h0]

/-- The trace of a resumed scan of a nonempty table list whose job
exists, for an arbitrary cancellation behaviour. -/
lemma start_scan_resume_trace (db : String) (tables processedSet : List String)
    (analyze : String → Option String) (cancelAfter : Option Nat) (nid rid : String)
    (h0 : ¬ (tables.length = 0)) :
    (start_scan db tables (some rid) true processedSet analyze cancelAfter nid).1
      = [PersistOp.logEvent rid "scan_started"
            ("Scanning " ++ toString tables.length ++ " tables in " ++ db)]
        ++ (runBatches (cancelFlag cancelAfter) rid tables.length analyze
            (chunks BATCH_SIZE (tables.filter (fun t => decide (t ∉ processedSet))))
            processedSet.length).1
        ++ (if cancelFlag cancelAfter
              (runBatches (cancelFlag cancelAfter) rid tables.length analyze
                (chunks BATCH_SIZE
                  (tables.filter (fun t => decide (t ∉ processedSet))))
                processedSet.length).2 = true then []
            else [PersistOp.markScanCompleted rid,
                  PersistOp.logEvent rid "scan_completed" "Scan completed"]) := by
  rw [start_scan.eq_def, if_neg h0]
  rfl

/-- The progress writes of the batch loop are bounded by the table count
whenever the already-processed set is a duplicate-free subset of the
current tables. -/
lemma scanLoop_writes_bounded (sid : String) (tables processedSet : List String)
    (analyze : String → Option String) (cancelAfter : Option Nat)
    (hsub : ∀ t ∈ processedSet, t ∈ tables) (hpnd : processedSet.Nodup) :
    List.Pairwise (· ≤ ·)
      ((progressWrites (runBatches (cancelFlag cancelAfter) sid tables.length analyze
          (chunks BATCH_SIZE (tables.filter (fun t => decide (t ∉ processedSet))))
          processedSet.length).1).map Prod.fst)
  ∧ ∀ pr ∈ progressWrites (runBatches (cancelFlag cancelAfter) sid tables.length analyze
        (chunks BATCH_SIZE (tables.filter (fun t => decide (t ∉ processedSet))))
        processedSet.length).1,
      pr.1 ≤ tables.length ∧ pr.2 = tables.length := by
  obtain ⟨hS, hB⟩ := runBatches_writes (cancelFlag cancelAfter) sid tables.length
    analyze (chunks BATCH_SIZE (tables.filter (fun t => decide (t ∉ processedSet))))
    processedSet.length
  refine ⟨hS, ?_⟩
  intro pr hpr
  have h1 := hB pr hpr
  have h2 := runBatches_count_le (cancelFlag cancelAfter) sid tables.length analyze
    (chunks BATCH_SIZE (tables.filter (fun t => decide (t ∉ processedSet))))
    processedSet.length
  have h3 : ((chunks BATCH_SIZE
      (tables.filter (fun t => decide (t ∉ processedSet)))).flatten).length
      = (tables.filter (fun t => decide (t ∉ processedSet))).length :=
    congrArg List.length (chunks_flatten _ _)
  have h4 := processed_filter_length_le tables processedSet hsub hpnd
  exact ⟨by omega, h1.1⟩

/-- C7 (amended): for every single run of `start_scan` (fresh, or
resumed from a processed set that is a duplicate-free subset of the
tables currently present), the `processed` counters of the progress
writes are non-decreasing, never exceed the table count, and every write
carries the current table count as its `total`; moreover after replaying
any trace prefix ending in a progress update, the persisted
`processed_tables` equals the written counter and `progress_percentage`
equals `round(processed/total*100, 2)` of the written pair.  (A resume
after the table set has changed CAN drive the persisted counter above
`total_tables`, see the counterexample.) -/
theorem C7_progress_invariant (db : String) (tables : List String)
    (resume : Option String) (scanExists : Bool) (processedSet : List String)
    (analyze : String → Option String) (cancelAfter : Option Nat) (nid : String)
    (hsub : ∀ t ∈ processedSet, t ∈ tables) (hpnd : processedSet.Nodup) :
    List.Pairwise (· ≤ ·)
      ((progressWrites (start_scan db tables resume scanExists processedSet
          analyze cancelAfter nid).1).map Prod.fst)
  ∧ (∀ pr ∈ progressWrites (start_scan db tables resume scanExists processedSet
        analyze cancelAfter nid).1,
      pr.1 ≤ tables.length ∧ pr.2 = tables.length)
  ∧ (∀ (pre post : List PersistOp) (sid t : String) (p tot : Nat) (b : Bool),
      (start_scan db tables resume scanExists processedSet
          analyze cancelAfter nid).1
        = pre ++ PersistOp.updateProgress sid t p tot b :: post →
      0 < tot →
      (replayScan (pre ++ [PersistOp.updateProgress sid t p tot b])).processed_tables = p
      ∧ (replayScan (pre ++ [PersistOp.updateProgress sid t p tot b])).progress_percentage
          = pyRound2 (((p : Rat) / (tot : Rat)) * 100)) := by
  have hmain : List.Pairwise (· ≤ ·)
      ((progressWrites (start_scan db tables resume scanExists processedSet
          analyze cancelAfter nid).1).map Prod.fst)
    ∧ ∀ pr ∈ progressWrites (start_scan db tables resume scanExists processedSet
          analyze cancelAfter nid).1,
        pr.1 ≤ tables.length ∧ pr.2 = tables.length := by
    by_cases h0 : tables.length = 0
    · have htr : (start_scan db tables resume scanExists processedSet
          analyze cancelAfter nid).1 = [] := by
        simp [start_scan, h0]
      rw [htr]
      simp [progressWrites]
    · cases resume with
      | none =>
        rw [start_scan_fresh_trace db tables analyze cancelAfter nid
            scanExists processedSet h0,
          progressWrites_append, progressWrites_append, progressWrites_append]
        rw [show progressWrites [PersistOp.createScan nid tables.length] = [] from rfl]
        rw [show progressWrites [PersistOp.logEvent nid "scan_started"
            ("Scanning " ++ toString tables.length ++ " tables in " ++ db)] = []
          from rfl]
        rw [progressWrites_endOps, List.append_nil, List.nil_append, List.nil_append]
        exact scanLoop_writes_bounded nid tables [] analyze cancelAfter
          (fun t ht => absurd ht (List.not_mem_nil t)) List.nodup_nil
      | some rid =>
        cases scanExists with
        | false =>
          have htr : (start_scan db tables (some rid) false processedSet
              analyze cancelAfter nid).1 = [] := by
            simp [start_scan, h0]
          rw [htr]
          simp [progressWrites]
        | true =>
          rw [start_scan_resume_trace db tables processedSet analyze cancelAfter
            nid rid h0, progressWrites_append, progressWrites_append]
          rw [show progressWrites [PersistOp.logEvent rid "scan_started"
              ("Scanning " ++ toString tables.length ++ " tables in " ++ db)] = []
            from rfl]
          rw [progressWrites_endOps, List.append_nil, List.nil_append]
          exact scanLoop_writes_bounded rid tables processedSet analyze cancelAfter
            hsub hpnd
  exact ⟨hmain.1, hmain.2,
    fun pre post sid t p tot b _ htot => replay_update_fields pre sid t p tot b htot⟩

/-- C7 counterexample: a scan of tables `A, B` completes; then table `B`
is dropped and `C` is created, and the scan is resumed with the same
scan id.  The resume frontier (`get_processed_tables`) still contains
`A` and `B`, so `processed_count` starts at 2 while only `C` remains to
process against a current total of 2: the post-write for `C` persists
`processed_tables = 3 > total_tables = 2` (and a 150% percentage),
violating the claimed invariant. -/
theorem C7_counterexample :
    (3, 2) ∈ progressWrites
      ((start_scan "db" ["A", "B"] none false [] (fun _ => none) none "scan_1").1
        ++ (start_scan "db" ["A", "C"] (some "scan_1") true
            (savedTables (start_scan "db" ["A", "B"] none false []
              (fun _ => none) none "scan_1").1)
            (fun _ => none) none "ignored").1)
  ∧ (replayScan
      ((start_scan "db" ["A", "B"] none false [] (fun _ => none) none "scan_1").1
        ++ (start_scan "db" ["A", "C"] (some "scan_1") true
            (savedTables (start_scan "db" ["A", "B"] none false []
              (fun _ => none) none "scan_1").1)
            (fun _ => none) none "ignored").1)).processed_tables = 3
  ∧ (replayScan
      ((start_scan "db" ["A", "B"] none false [] (fun _ => none) none "scan_1").1
        ++ (start_scan "db" ["A", "C"] (some "scan_1") true
            (savedTables (start_scan "db" ["A", "B"] none false []
              (fun _ => none) none "scan_1").1)
            (fun _ => none) none "ignored").1)).total_tables = 2
  ∧ ¬ ((replayScan
      ((start_scan "db" ["A", "B"] none false [] (fun _ => none) none "scan_1").1
        ++ (start_scan "db" ["A", "C"] (some "scan_1") true
            (savedTables (start_scan "db" ["A", "B"] none false []
              (fun _ => none) none "scan_1").1)
            (fun _ => none) none "ignored").1)).processed_tables
      ≤ (replayScan
      ((start_scan "db" ["A", "B"] none false [] (fun _ => none) none "scan_1").1
        ++ (start_scan "db" ["A", "C"] (some "scan_1") true
            (savedTables (start_scan "db" ["A", "B"] none false []
              (fun _ => none) none "scan_1").1)
            (fun _ => none) none "ignored").1)).total_tables) := by
  refine ⟨by decide, by decide, by decide, by decide⟩

/-- C7 witness: the amended invariant at a concrete fresh two-table
scan. -/
theorem C7_progress_invariant_witness :
    List.Pairwise (· ≤ ·)
      ((progressWrites (start_scan "db" ["t1", "t2"] none false []
          (fun _ => none) none "scan_w7").1).map Prod.fst)
  ∧ (∀ pr ∈ progressWrites (start_scan "db" ["t1", "t2"] none false []
        (fun _ => none) none "scan_w7").1,
      pr.1 ≤ (["t1", "t2"] : List String).length
        ∧ pr.2 = (["t1", "t2"] : List String).length)
  ∧ (∀ (pre post : List PersistOp) (sid t : String) (p tot : Nat) (b : Bool),
      (start_scan "db" ["t1", "t2"] none false []
          (fun _ => none) none "scan_w7").1
        = pre ++ PersistOp.updateProgress sid t p tot b :: post →
      0 < tot →
      (replayScan (pre ++ [PersistOp.updateProgress sid t p tot b])).processed_tables = p
      ∧ (replayScan (pre ++ [PersistOp.updateProgress sid t p tot b])).progress_percentage
          = pyRound2 (((p : Rat) / (tot : Rat)) * 100)) :=
  C7_progress_invariant "db" ["t1", "t2"] none false [] (fun _ => none) none "scan_w7"
    (fun t ht => absurd ht (List.not_mem_nil t)) List.nodup_nil

/-! ## C8 -/

/-- C8: a workload analysis resumed with a completed-phase set
containing `query_digest` and `slow_queries` executes no catalog query
for those two phases, and executes exactly the remaining phases in the
fixed order `table_io`, `index_usage`, `wait_events`,
`recommendations`. -/
theorem C8_phase_skip_on_resume (db rid nid : String) :
    executedPhases (start_analysis db (some rid) true
        ["query_digest", "slow_queries"] (fun _ => false) none nid).1
      = ["table_io", "index_usage", "wait_events", "recommendations"]
  ∧ "query_digest" ∉ executedPhases (start_analysis db (some rid) true
        ["query_digest", "slow_queries"] (fun _ => false) none nid).1
  ∧ "slow_queries" ∉ executedPhases (start_analysis db (some rid) true
        ["query_digest", "slow_queries"] (fun _ => false) none nid).1 := by
  have h1 : executedPhases (start_analysis db (some rid) true
      ["query_digest", "slow_queries"] (fun _ => false) none nid).1
      = ["table_io", "index_usage", "wait_events", "recommendations"] := by
    simp [start_analysis, runPhases, PHASES, cancelFlag, executedPhases]
  refine ⟨h1, ?_, ?_⟩
  · rw [h1]
    decide
  · rw [h1]
    decide

end XRay
